import Mathlib

/-!
# Verification of the HomeMadeChess core engine

Shallow embedding of the chess rules engine (src/core): piece/board/state data
model, FEN codec, move generation, attack detection, apply/undo and game-status
derivation, translated from the Python source.

Conventions carried over from the source:
* squares are (rank, file) with rank 0 = White's back rank, file 0 = the a-file;
* a board square holds at most one piece; `Board.set_piece_at` always updates
  the stored piece's recorded position to the slot it is placed in, so any
  board built through the API keeps piece.position equal to its slot.  The
  embedding therefore stores only (type, color) per square; the recorded square
  of a piece is the square it occupies.
* Python raises (IndexError / ValueError) are modelled as `none` / `Except.error`
  results.  `Board.deep_copy` and `GameState.copy` are the identity on the
  immutable values of the embedding.
-/

set_option maxHeartbeats 4000000

set_option maxRecDepth 100000

inductive Color : Type
| white
| black
deriving DecidableEq, Repr

def oppColor : Color → Color
| Color.white => Color.black
| Color.black => Color.white

inductive PType : Type
| P
| N
| B
| R
| Q
| K
deriving DecidableEq, Repr

/-- A chess piece: type and color (the recorded square is the board slot). -/
structure Piece : Type where
  ptype : PType
  color : Color
deriving DecidableEq, Repr

/-- board[rank][file] = Piece or None; coordinates are integers as in Python. -/
def Board : Type := Int → Int → Option Piece

def emptyBoard : Board := fun _ _ => none

/-- Board.is_valid_square. -/
def is_valid_square (r f : Int) : Bool :=
  decide (0 ≤ r ∧ r < 8 ∧ 0 ≤ f ∧ f < 8)

/-- Board.get_piece_at: None when out of bounds. -/
def get_piece_at (b : Board) (r f : Int) : Option Piece :=
  if is_valid_square r f then b r f else none

/-- Board.set_piece_at (out-of-bounds raises in Python; never reached by the
engine on generated moves, modelled as leaving the board unchanged). -/
def set_piece_at (b : Board) (r f : Int) (p : Option Piece) : Board :=
  if is_valid_square r f then
    fun r' f' => if r' = r ∧ f' = f then p else b r' f'
  else b

/-- Board.clear_square. -/
def clear_square (b : Board) (r f : Int) : Board :=
  set_piece_at b r f none

/-- Squares of the 8x8 grid in row-major order, as used by the Python loops
`for r in range(8): for f in range(8)`. -/
def allSquares : List (Int × Int) :=
  (List.range 8).flatMap (fun r => (List.range 8).map (fun f => ((r : Int), (f : Int))))

/-- Board.find_king: first (rank, file) holding a king of the color, or None. -/
def find_king (b : Board) (c : Color) : Option (Int × Int) :=
  allSquares.find? (fun q =>
    match b q.1 q.2 with
    | some p => p.color = c ∧ p.ptype = PType.K
    | none => false)

/-- Pawn.direction: +1 for white, -1 for black. -/
def pawnDirection : Color → Int
| Color.white => 1
| Color.black => -1

/-- Pawn.start_rank: 1 for white, 6 for black. -/
def pawnStartRank : Color → Int
| Color.white => 1
| Color.black => 6

def knightDeltas : List (Int × Int) :=
  [(-2, -1), (-2, 1), (-1, -2), (-1, 2), (1, -2), (1, 2), (2, -1), (2, 1)]

def bishopDeltas : List (Int × Int) :=
  [(-1, -1), (-1, 1), (1, -1), (1, 1)]

def rookDeltas : List (Int × Int) :=
  [(-1, 0), (1, 0), (0, -1), (0, 1)]

def queenDeltas : List (Int × Int) :=
  [(-1, -1), (-1, 0), (-1, 1), (0, -1), (0, 1), (1, -1), (1, 0), (1, 1)]

def kingDeltas : List (Int × Int) := queenDeltas

/-- PROMOTION_PIECES = ("Q", "R", "B", "N"). -/
def promotionPieces : List PType := [PType.Q, PType.R, PType.B, PType.N]

/-- Move: immutable value object for a single ply.  `promotion_piece` is one of
Q/R/B/N in any move the engine constructs (checked by `Move.__post_init__`). -/
structure Move : Type where
  from_square : Int × Int
  to_square : Int × Int
  promotion_piece : Option PType
  is_castle : Bool
  is_en_passant : Bool
  is_double_pawn_push : Bool
deriving DecidableEq, Repr

/-- GameState: side to move, castling rights (a Python string, modelled as its
character list), en-passant target, clocks. -/
structure GameState : Type where
  side_to_move : Color
  castling_rights : List Char
  en_passant_target : Option (Int × Int)
  halfmove_clock : Int
  fullmove_number : Int
deriving DecidableEq, Repr

/-- True iff the optional occupant is a piece of the given color and type. -/
def pieceIs (op : Option Piece) (c : Color) (t : PType) : Bool :=
  match op with
  | some p => decide (p.color = c ∧ p.ptype = t)
  | none => false

/-- One sliding ray of `square_attacked_by`: walk from (r, f) in direction
(dr, df) until blocked.  The Python `while` loop stays on the 8x8 board and
each step moves at least one unit, so a fuel of 8 steps is exact. -/
def slideHit (b : Board) (byColor : Color) (ex : Option (Int × Int)) (dr df : Int) :
    Nat → Int → Int → Bool
  | 0, _, _ => false
  | fuel + 1, r2, f2 =>
    if is_valid_square r2 f2 then
      match get_piece_at b r2 f2 with
      | some p =>
        if some (r2, f2) = ex then slideHit b byColor ex dr df fuel (r2 + dr) (f2 + df)
        else
          decide (p.color = byColor ∧
            ((p.ptype = PType.R ∨ p.ptype = PType.Q) ∧ (dr = 0 ∨ df = 0) ∨
             (p.ptype = PType.B ∨ p.ptype = PType.Q) ∧ dr ≠ 0 ∧ df ≠ 0))
      | none => slideHit b byColor ex dr df fuel (r2 + dr) (f2 + df)
    else false

/-- move_generator.square_attacked_by, translated clause for clause (pawns,
knights, sliders with the transparent `exclude_square`, king).  Note the pawn
clause looks at `rank + direction` exactly as the source does. -/
def square_attacked_by (b : Board) (sq : Int × Int) (byColor : Color)
    (ex : Option (Int × Int)) : Bool :=
  let rank := sq.1
  let file := sq.2
  let direction : Int := if byColor = Color.white then 1 else -1
  let pawnHit := ([(-1 : Int), 1]).any (fun df =>
    pieceIs (get_piece_at b (rank + direction) (file + df)) byColor PType.P)
  let knightHit := knightDeltas.any (fun d =>
    pieceIs (get_piece_at b (rank + d.1) (file + d.2)) byColor PType.N)
  let sliderHit := (rookDeltas ++ bishopDeltas).any (fun d =>
    slideHit b byColor ex d.1 d.2 8 (rank + d.1) (file + d.2))
  let kingHit := kingDeltas.any (fun d =>
    pieceIs (get_piece_at b (rank + d.1) (file + d.2)) byColor PType.K)
  pawnHit || knightHit || sliderHit || kingHit

/-- Promotion fan-out into the four promotion pieces, in source order. -/
def promoFan (a c : Int × Int) : List Move :=
  promotionPieces.map (fun pt => ⟨a, c, some pt, false, false, false⟩)

/-- move_generator._pseudo_legal_pawn_moves for a pawn of color c at (r0, f0). -/
def pseudo_legal_pawn_moves (b : Board) (s : GameState) (c : Color) (r0 f0 : Int) :
    List Move :=
  let dr := pawnDirection c
  let r1 := r0 + dr
  let fwd :=
    if is_valid_square r1 f0 ∧ get_piece_at b r1 f0 = none then
      if r1 = 0 ∨ r1 = 7 then promoFan (r0, f0) (r1, f0)
      else
        ⟨(r0, f0), (r1, f0), none, false, false, false⟩ ::
          (if r0 = pawnStartRank c then
            (if get_piece_at b (r0 + 2 * dr) f0 = none then
              [⟨(r0, f0), (r0 + 2 * dr, f0), none, false, false, true⟩]
            else [])
          else [])
    else []
  let caps := ([(-1 : Int), 1]).flatMap (fun df =>
    let f1 := f0 + df
    if is_valid_square r1 f1 then
      match get_piece_at b r1 f1 with
      | some t =>
        if t.color ≠ c then
          (if r1 = 0 ∨ r1 = 7 then promoFan (r0, f0) (r1, f1)
           else [⟨(r0, f0), (r1, f1), none, false, false, false⟩])
        else []
      | none => []
    else [])
  let ep :=
    match s.en_passant_target with
    | some e =>
      if r0 + dr = e.1 ∧ (f0 - e.2).natAbs = 1 then
        [⟨(r0, f0), e, none, false, true, false⟩]
      else []
    | none => []
  fwd ++ caps ++ ep

/-- One ray of _pseudo_legal_sliding_moves (fuel 8 is exact, as in slideHit). -/
def slideMoves (b : Board) (c : Color) (r0 f0 dr df : Int) :
    Nat → Int → Int → List Move
  | 0, _, _ => []
  | fuel + 1, r, f =>
    if is_valid_square r f then
      match get_piece_at b r f with
      | none =>
        ⟨(r0, f0), (r, f), none, false, false, false⟩ ::
          slideMoves b c r0 f0 dr df fuel (r + dr) (f + df)
      | some t =>
        if t.color ≠ c then [⟨(r0, f0), (r, f), none, false, false, false⟩] else []
    else []

/-- move_generator._pseudo_legal_sliding_moves. -/
def pseudo_legal_sliding_moves (b : Board) (c : Color) (r0 f0 : Int)
    (deltas : List (Int × Int)) : List Move :=
  deltas.flatMap (fun d => slideMoves b c r0 f0 d.1 d.2 8 (r0 + d.1) (f0 + d.2))

/-- move_generator._pseudo_legal_knight_king_moves. -/
def pseudo_legal_knight_king_moves (b : Board) (c : Color) (r0 f0 : Int)
    (deltas : List (Int × Int)) : List Move :=
  deltas.filterMap (fun d =>
    let r := r0 + d.1
    let f := f0 + d.2
    if is_valid_square r f then
      match get_piece_at b r f with
      | none => some ⟨(r0, f0), (r, f), none, false, false, false⟩
      | some t =>
        if t.color ≠ c then some ⟨(r0, f0), (r, f), none, false, false, false⟩ else none
    else none)

/-- move_generator._pseudo_legal_castling for a king of color c at (r0, f0). -/
def pseudo_legal_castling (b : Board) (s : GameState) (c : Color) (r0 f0 : Int) :
    List Move :=
  let rights := s.castling_rights
  match c with
  | Color.white =>
    (if 'K' ∈ rights ∧ get_piece_at b r0 5 = none ∧ get_piece_at b r0 6 = none ∧
        square_attacked_by b (r0, f0) Color.black none = false ∧
        square_attacked_by b (r0, 5) Color.black none = false ∧
        square_attacked_by b (r0, 6) Color.black none = false then
      [⟨(r0, f0), (r0, 6), none, true, false, false⟩]
    else []) ++
    (if 'Q' ∈ rights ∧ get_piece_at b r0 1 = none ∧ get_piece_at b r0 2 = none ∧
        get_piece_at b r0 3 = none ∧
        square_attacked_by b (r0, f0) Color.black none = false ∧
        square_attacked_by b (r0, 3) Color.black none = false ∧
        square_attacked_by b (r0, 2) Color.black none = false then
      [⟨(r0, f0), (r0, 2), none, true, false, false⟩]
    else [])
  | Color.black =>
    (if 'k' ∈ rights ∧ get_piece_at b r0 5 = none ∧ get_piece_at b r0 6 = none ∧
        square_attacked_by b (r0, f0) Color.white none = false ∧
        square_attacked_by b (r0, 5) Color.white none = false ∧
        square_attacked_by b (r0, 6) Color.white none = false then
      [⟨(r0, f0), (r0, 6), none, true, false, false⟩]
    else []) ++
    (if 'q' ∈ rights ∧ get_piece_at b r0 1 = none ∧ get_piece_at b r0 2 = none ∧
        get_piece_at b r0 3 = none ∧
        square_attacked_by b (r0, f0) Color.white none = false ∧
        square_attacked_by b (r0, 3) Color.white none = false ∧
        square_attacked_by b (r0, 2) Color.white none = false then
      [⟨(r0, f0), (r0, 2), none, true, false, false⟩]
    else [])

/-- move_generator._pseudo_legal_moves_for_piece. -/
def pseudo_legal_moves_for_piece (b : Board) (s : GameState) (p : Piece)
    (r0 f0 : Int) : List Move :=
  match p.ptype with
  | PType.P => pseudo_legal_pawn_moves b s p.color r0 f0
  | PType.N => pseudo_legal_knight_king_moves b p.color r0 f0 knightDeltas
  | PType.B => pseudo_legal_sliding_moves b p.color r0 f0 bishopDeltas
  | PType.R => pseudo_legal_sliding_moves b p.color r0 f0 rookDeltas
  | PType.Q => pseudo_legal_sliding_moves b p.color r0 f0 queenDeltas
  | PType.K =>
    pseudo_legal_knight_king_moves b p.color r0 f0 kingDeltas ++
      pseudo_legal_castling b s p.color r0 f0

/-- Undo info returned by apply_move: (captured_piece, captured_square,
rook_from, rook_to, prev_castling, prev_ep, prev_halfmove). -/
structure UndoInfo : Type where
  captured_piece : Option Piece
  captured_square : Int × Int
  rook_from : Option (Int × Int)
  rook_to : Option (Int × Int)
  prev_castling : List Char
  prev_ep : Option (Int × Int)
  prev_halfmove : Int
deriving DecidableEq, Repr

/-- Castling-rights update of apply_move: drop for a moved king, a rook moved
from file 0/7, or a rook captured on file 0/7 (`list.remove` removes the first
occurrence, as `List.erase` does; removal is guarded by membership in the
source, which `List.erase` subsumes). -/
def updateRights (rights : List Char) (piece : Piece) (captured : Option Piece)
    (capturedSq : Int × Int) (f0 : Int) : List Char :=
  let r1 :=
    if piece.ptype = PType.K then
      if piece.color = Color.white then (rights.erase 'K').erase 'Q'
      else (rights.erase 'k').erase 'q'
    else rights
  let r2 :=
    if piece.ptype = PType.R then
      if piece.color = Color.white then
        let a := if f0 = 7 then r1.erase 'K' else r1
        if f0 = 0 then a.erase 'Q' else a
      else
        let a := if f0 = 7 then r1.erase 'k' else r1
        if f0 = 0 then a.erase 'q' else a
    else r1
  match captured with
  | some cp =>
    if cp.ptype = PType.R then
      let a :=
        if capturedSq.2 = 7 then
          (if cp.color = Color.white then r2.erase 'K' else r2.erase 'k')
        else r2
      if capturedSq.2 = 0 then
        (if cp.color = Color.white then a.erase 'Q' else a.erase 'q')
      else a
    else r2
  | none => r2

/-- Body of apply_move once the moving piece has been read from from_square.
Follows the source step for step: en passant removal, castling rook transfer,
ordinary capture, piece move / promotion replacement, then the game-state
updates (side, clocks, castling rights, en-passant target). -/
def applyMoveWith (b : Board) (s : GameState) (m : Move) (piece : Piece) :
    Board × GameState × UndoInfo :=
  let r0 := m.from_square.1
  let f0 := m.from_square.2
  let r1 := m.to_square.1
  let f1 := m.to_square.2
  let epd : Board × Option Piece × (Int × Int) :=
    if m.is_en_passant then
      (clear_square b r0 f1, get_piece_at b r0 f1, (r0, f1))
    else (b, none, (r1, f1))
  let b1 := epd.1
  let captured0 := epd.2.1
  let capturedSq := epd.2.2
  let cst : Board × Option (Int × Int) × Option (Int × Int) :=
    if m.is_castle then
      if f1 > f0 then
        let rp := get_piece_at b1 r0 7
        (set_piece_at (clear_square b1 r0 7) r0 5 rp, some (r0, 7), some (r0, 5))
      else
        let rp := get_piece_at b1 r0 0
        (set_piece_at (clear_square b1 r0 0) r0 3 rp, some (r0, 0), some (r0, 3))
    else (b1, none, none)
  let b2 := cst.1
  let rookFrom := cst.2.1
  let rookTo := cst.2.2
  let cap : Board × Option Piece :=
    if m.is_en_passant = false ∧ (get_piece_at b2 r1 f1).isSome then
      (clear_square b2 r1 f1, get_piece_at b2 r1 f1)
    else (b2, captured0)
  let b3 := cap.1
  let captured := cap.2
  let b4 :=
    match m.promotion_piece with
    | some pt => set_piece_at (clear_square b3 r0 f0) r1 f1 (some ⟨pt, piece.color⟩)
    | none => set_piece_at (clear_square b3 r0 f0) r1 f1 (some piece)
  let side := oppColor s.side_to_move
  let halfmove :=
    if piece.ptype = PType.P ∨ captured.isSome then 0 else s.halfmove_clock + 1
  let fullmove :=
    if side = Color.white then s.fullmove_number + 1 else s.fullmove_number
  let rights := updateRights s.castling_rights piece captured capturedSq f0
  let ep :=
    if m.is_double_pawn_push then some (Int.fdiv (r0 + r1) 2, f1) else none
  (b4,
   ⟨side, rights, ep, halfmove, fullmove⟩,
   ⟨captured, capturedSq, rookFrom, rookTo, s.castling_rights,
    s.en_passant_target, s.halfmove_clock⟩)

/-- apply.apply_move: None models the ValueError raised when from_square is
empty (and the IndexError when it is off the board). -/
def apply_move (b : Board) (s : GameState) (m : Move) :
    Option (Board × GameState × UndoInfo) :=
  (get_piece_at b m.from_square.1 m.from_square.2).map (applyMoveWith b s m)

/-- Body of undo_move once the moved piece has been read from to_square. -/
def undoMoveWith (b : Board) (s : GameState) (m : Move) (u : UndoInfo)
    (piece : Piece) : Board × GameState :=
  let r0 := m.from_square.1
  let f0 := m.from_square.2
  let r1 := m.to_square.1
  let f1 := m.to_square.2
  let side := oppColor s.side_to_move
  let fullmove :=
    if side = Color.black then s.fullmove_number - 1 else s.fullmove_number
  let b1 := clear_square b r1 f1
  let b2 :=
    if m.promotion_piece.isSome then
      set_piece_at b1 r0 f0 (some ⟨PType.P, piece.color⟩)
    else set_piece_at b1 r0 f0 (some piece)
  let b3 :=
    match u.captured_piece with
    | some cp => set_piece_at b2 u.captured_square.1 u.captured_square.2 (some cp)
    | none => b2
  let b4 :=
    match m.is_castle, u.rook_from, u.rook_to with
    | true, some rf, some rt =>
      let rp := get_piece_at b3 rt.1 rt.2
      set_piece_at (clear_square b3 rt.1 rt.2) rf.1 rf.2 rp
    | _, _, _ => b3
  (b4, ⟨side, u.prev_castling, u.prev_ep, u.prev_halfmove, fullmove⟩)

/-- apply.undo_move: None models the ValueError raised when to_square is
empty. -/
def undo_move (b : Board) (s : GameState) (m : Move) (u : UndoInfo) :
    Option (Board × GameState) :=
  (get_piece_at b m.to_square.1 m.to_square.2).map (undoMoveWith b s m u)

/-- The pseudo-legal collection loop of get_legal_moves (all squares, optional
from_square scoping, pieces of the side to move). -/
def pseudoMoves (b : Board) (s : GameState) (fromSq : Option (Int × Int)) :
    List Move :=
  allSquares.flatMap (fun q =>
    if (match fromSq with
        | some fs => decide (fs = q)
        | none => true) then
      match get_piece_at b q.1 q.2 with
      | some p =>
        if p.color = s.side_to_move then pseudo_legal_moves_for_piece b s p q.1 q.2
        else []
      | none => []
    else [])

/-- The post-move king-safety test of get_legal_moves.  Board and state copies
are the identity on the immutable values of the embedding; a move whose
from_square were empty would raise in Python, which cannot happen for a
generated pseudo-legal move, and is modelled as the move being discarded. -/
def survivesCheck (b : Board) (s : GameState) (m : Move) : Bool :=
  let side := s.side_to_move
  let opponent := oppColor side
  match apply_move b s m with
  | some x =>
    match find_king x.1 side with
    | some kp => !square_attacked_by x.1 kp opponent none
    | none => false
  | none => false

/-- move_generator.get_legal_moves. -/
def get_legal_moves (b : Board) (s : GameState) (fromSq : Option (Int × Int)) :
    List Move :=
  (pseudoMoves b s fromSq).filter (survivesCheck b s)

/-- rules.is_in_check (colorOpt = None uses side_to_move). -/
def is_in_check (b : Board) (s : GameState) (colorOpt : Option Color) : Bool :=
  let side := colorOpt.getD s.side_to_move
  match find_king b side with
  | none => false
  | some kp => square_attacked_by b kp (oppColor side) none

/-- rules.get_game_status. -/
def get_game_status (b : Board) (s : GameState) : String :=
  let legal := get_legal_moves b s none
  let inCheck := is_in_check b s none
  if legal = [] then
    if inCheck then "checkmate" else "stalemate"
  else
    if inCheck then "check" else "playing"

/-- FEN errors: ValueError (the FormatError kind) vs IndexError (the board
bounds check in Board.set_piece_at). -/
inductive FenErr : Type
| valueError
| indexError
deriving DecidableEq, Repr

/-- Helper for `splitWS` (structural recursion over the character list; the
library String.split is not used because it does not reduce in the kernel). -/
def wordsAux : List Char → List Char → List (List Char)
  | [], acc => if acc = [] then [] else [acc.reverse]
  | c :: cs, acc =>
    if c.isWhitespace then
      (if acc = [] then wordsAux cs [] else acc.reverse :: wordsAux cs [])
    else wordsAux cs (c :: acc)

/-- Python str.split() with no argument: split on whitespace runs, no empty
fields. -/
def splitWS (t : String) : List (List Char) :=
  wordsAux t.toList []

/-- Helper for `splitOnChar`. -/
def splitOnCharAux (sep : Char) : List Char → List Char → List (List Char)
  | [], acc => [acc.reverse]
  | c :: cs, acc =>
    if c = sep then acc.reverse :: splitOnCharAux sep cs []
    else splitOnCharAux sep cs (c :: acc)

/-- Python str.split(sep): empty fields kept, as in "a//b".split("/"). -/
def splitOnChar (sep : Char) (l : List Char) : List (List Char) :=
  splitOnCharAux sep l []

/-- Digits value of a non-empty all-digit character list. -/
def digitsVal : List Char → Option Nat
  | [] => none
  | [c] => if c.isDigit then some (c.toNat - 48) else none
  | c :: cs =>
    if c.isDigit then (digitsVal cs).map (fun n => (c.toNat - 48) * 10 ^ cs.length + n)
    else none

/-- Python int(text): optional sign then decimal digits (the underscore and
unicode-digit leniencies of CPython are never exercised by FEN fields). -/
def parseIntChars : List Char → Option Int
  | '-' :: rest => (digitsVal rest).map (fun n => -(n : Int))
  | '+' :: rest => (digitsVal rest).map (fun n => (n : Int))
  | l => (digitsVal l).map (fun n => (n : Int))

/-- piece.piece_from_fen: case-coded symbol to piece; unknown symbols raise
ValueError (modelled as none). -/
def piece_from_fen (c : Char) : Option Piece :=
  let color := if c.isUpper then Color.white else Color.black
  match c.toUpper with
  | 'P' => some ⟨PType.P, color⟩
  | 'N' => some ⟨PType.N, color⟩
  | 'B' => some ⟨PType.B, color⟩
  | 'R' => some ⟨PType.R, color⟩
  | 'Q' => some ⟨PType.Q, color⟩
  | 'K' => some ⟨PType.K, color⟩
  | _ => none

/-- The inner `for _ in range(n)` loop of from_fen clearing n squares, with
the bounds check of set_piece_at (IndexError past file 7). -/
def setRun (b : Board) (rank fi : Int) : Nat → Except FenErr (Board × Int)
  | 0 => Except.ok (b, fi)
  | n + 1 =>
    if is_valid_square rank fi then
      setRun (set_piece_at b rank fi none) rank (fi + 1) n
    else Except.error FenErr.indexError

/-- One rank token of the FEN placement field, walked character by character. -/
def parseRankChars (rank : Int) : List Char → Board → Int → Except FenErr (Board × Int)
  | [], b, fi => Except.ok (b, fi)
  | c :: cs, b, fi =>
    if c.isDigit then
      match setRun b rank fi (c.toNat - 48) with
      | Except.ok x => parseRankChars rank cs x.1 x.2
      | Except.error e => Except.error e
    else
      match piece_from_fen c with
      | some p =>
        if is_valid_square rank fi then
          parseRankChars rank cs (set_piece_at b rank fi (some p)) (fi + 1)
        else Except.error FenErr.indexError
      | none => Except.error FenErr.valueError

/-- The rank loop of from_fen: FEN rank 8 first, our_rank = 7 - rank_idx; a
rank not ending on exactly 8 files raises ValueError. -/
def parseRanks : List (List Char) → Int → Board → Except FenErr Board
  | [], _, b => Except.ok b
  | t :: ts, idx, b =>
    match parseRankChars (7 - idx) t b 0 with
    | Except.ok x =>
      if x.2 ≠ 8 then Except.error FenErr.valueError else parseRanks ts (idx + 1) x.1
    | Except.error e => Except.error e

/-- GameState.fen_square_to_coords: file from the letter, rank_idx = 8 - digit
(note this is the mirror of the placement convention); invalid input raises
ValueError (none). -/
def fen_square_to_coords (sq : String) : Option (Int × Int) :=
  let cs := sq.toList
  if cs.length = 2 then
    let fc := (cs.getD 0 ' ').toLower
    let rc := cs.getD 1 ' '
    if rc.isDigit then
      let fi : Int := (fc.toNat : Int) - 97
      let ri : Int := 8 - ((rc.toNat : Int) - 48)
      if 0 ≤ fi ∧ fi < 8 ∧ 0 ≤ ri ∧ ri < 8 then some (ri, fi) else none
    else none
  else none

/-- GameState.coords_to_fen_square: chr(ord('a') + file) followed by 8 - rank. -/
def coords_to_fen_square (r f : Int) : String :=
  String.mk [Char.ofNat ((97 + f).toNat)] ++ toString (8 - r)

/-- Python int(text) on a clock field. -/
def parseClock (t : List Char) : Except FenErr Int :=
  match parseIntChars t with
  | some n => Except.ok n
  | none => Except.error FenErr.valueError

/-- GameState.from_fen: placement, side, castling (lenient filter), en passant,
clocks with defaults 0/1.  The board argument is the board the Python method
mutates (a fresh Board in every caller of the repository). -/
def from_fen (fen : String) (b0 : Board) : Except FenErr (Board × GameState) :=
  let parts := splitWS fen
  if parts.length < 4 then Except.error FenErr.valueError
  else
    let rankStrs := splitOnChar '/' (parts.getD 0 [])
    if rankStrs.length ≠ 8 then Except.error FenErr.valueError
    else
      match parseRanks rankStrs 0 b0 with
      | Except.error e => Except.error e
      | Except.ok board =>
        let sideStr := (parts.getD 1 []).map Char.toLower
        if sideStr = ['w'] ∨ sideStr = ['b'] then
          let side := if sideStr = ['w'] then Color.white else Color.black
          let castling := parts.getD 2 []
          let rights : List Char :=
            if castling = ['-'] then castling
            else castling.filter (fun ch => ch = 'K' ∨ ch = 'Q' ∨ ch = 'k' ∨ ch = 'q')
          let epStr := parts.getD 3 []
          let epRes : Except FenErr (Option (Int × Int)) :=
            if epStr = ['-'] then Except.ok none
            else
              match fen_square_to_coords (String.mk epStr) with
              | some q => Except.ok (some q)
              | none => Except.error FenErr.valueError
          match epRes with
          | Except.error e => Except.error e
          | Except.ok epT =>
            match (if 4 < parts.length then parseClock (parts.getD 4 []) else Except.ok 0) with
            | Except.error e => Except.error e
            | Except.ok hm =>
              match (if 5 < parts.length then parseClock (parts.getD 5 []) else Except.ok 1) with
              | Except.error e => Except.error e
              | Except.ok fm => Except.ok (board, ⟨side, rights, epT, hm, fm⟩)
        else Except.error FenErr.valueError

def pieceTypeChar : PType → Char
| PType.P => 'P'
| PType.N => 'N'
| PType.B => 'B'
| PType.R => 'R'
| PType.Q => 'Q'
| PType.K => 'K'

/-- FEN symbol of a piece: uppercase white, lowercase black. -/
def pieceChar (p : Piece) : Char :=
  if p.color = Color.white then pieceTypeChar p.ptype else (pieceTypeChar p.ptype).toLower

/-- One row of to_fen_placement, with run-length coding of empty files. -/
def rowStr (b : Board) (rank : Int) : String :=
  let r := (List.range 8).foldl
    (fun (acc : String × Nat) (fn : Nat) =>
      match get_piece_at b rank (fn : Int) with
      | none => (acc.1, acc.2 + 1)
      | some p =>
        let pre := if acc.2 ≠ 0 then acc.1 ++ toString acc.2 else acc.1
        (pre ++ String.mk [pieceChar p], 0))
    ("", 0)
  if r.2 ≠ 0 then r.1 ++ toString r.2 else r.1

/-- GameState.to_fen_placement: FEN rank 8 first (our rank 7). -/
def to_fen_placement (b : Board) : String :=
  String.intercalate "/" ((List.range 8).map (fun i => rowStr b (7 - (i : Int))))

/-- GameState.to_fen. -/
def to_fen (s : GameState) (b : Board) : String :=
  to_fen_placement b ++ " " ++
    (if s.side_to_move = Color.white then "w" else "b") ++ " " ++
    (if s.castling_rights = [] then "-" else String.mk s.castling_rights) ++ " " ++
    (match s.en_passant_target with
     | none => "-"
     | some q => coords_to_fen_square q.1 q.2) ++ " " ++
    toString s.halfmove_clock ++ " " ++ toString s.fullmove_number

/-- Move.uci_style: files "abcdefgh", rank printed as 8 - rank, lowercase
promotion letter. -/
def uci_style (m : Move) : String :=
  let files := "abcdefgh".toList
  let fromStr := String.mk [files.getD m.from_square.2.toNat ' '] ++ toString (8 - m.from_square.1)
  let toStr := String.mk [files.getD m.to_square.2.toNat ' '] ++ toString (8 - m.to_square.1)
  let promo :=
    match m.promotion_piece with
    | some pt => String.mk [(pieceTypeChar pt).toLower]
    | none => ""
  fromStr ++ toStr ++ promo

def STARTING_FEN : String := "rnbqkbnr/pppppppp/8/8/8/8/PPPPPPPP/RNBQKBNR w KQkq - 0 1"

/-- Verification combinator: the error kind from_fen raises on the input, if
any (the repository always feeds from_fen a fresh Board). -/
def fenError (fen : String) : Option FenErr :=
  match from_fen fen emptyBoard with
  | Except.error e => some e
  | Except.ok _ => none

/-- Verification combinator: board and state parsed from a FEN (defaulted on
error; every use in this file is on a FEN that parses). -/
def parseFenD (fen : String) : Board × GameState :=
  match from_fen fen emptyBoard with
  | Except.ok x => x
  | Except.error _ => (emptyBoard, ⟨Color.white, [], none, 0, 1⟩)

/-- Verification combinator: apply then undo with the returned record. -/
def roundTrip (b : Board) (s : GameState) (m : Move) : Option (Board × GameState) :=
  (apply_move b s m).bind (fun t => undo_move t.1 t.2.1 m t.2.2)

/-- Facts available for every pseudo-legal move the generator can emit,
extracted by inverting each per-piece generator. -/
structure GenFacts (b : Board) (s : GameState) (m : Move) : Prop where
  valid_from : is_valid_square m.from_square.1 m.from_square.2 = true
  piece : ∃ p, b m.from_square.1 m.from_square.2 = some p ∧ p.color = s.side_to_move ∧
    (∀ pt, m.promotion_piece = some pt → p.ptype = PType.P) ∧
    (m.is_castle = true → p.ptype = PType.K)
  promo_mem : ∀ pt, m.promotion_piece = some pt → pt ∈ promotionPieces
  ne : m.from_square ≠ m.to_square
  valid_to : m.is_en_passant = false → is_valid_square m.to_square.1 m.to_square.2 = true
  ep_shape : m.is_en_passant = true → m.is_castle = false ∧ m.promotion_piece = none ∧
    s.en_passant_target = some m.to_square ∧ m.to_square.1 ≠ m.from_square.1 ∧
    m.to_square.2 ≠ m.from_square.2
  castle_shape : m.is_castle = true → m.is_en_passant = false ∧ m.promotion_piece = none ∧
    m.to_square.1 = m.from_square.1 ∧
    ((m.to_square.2 = 6 ∧ b m.from_square.1 5 = none ∧ b m.from_square.1 6 = none) ∨
     (m.to_square.2 = 2 ∧ b m.from_square.1 3 = none ∧ b m.from_square.1 2 = none))

/-- The piece apply_move places on the destination: the promotion piece of the
mover's color for a promotion, otherwise the moving piece itself. -/
def promoPay (promo : Option PType) (p : Piece) : Piece :=
  match promo with
  | some pt => ⟨pt, p.color⟩
  | none => p

/-- No king of color c stands anywhere on the 8x8 grid. -/
def noKing (b : Board) (c : Color) : Prop :=
  ∀ r f pk, is_valid_square r f = true → b r f = some pk →
    ¬(pk.color = c ∧ pk.ptype = PType.K)

/-- A lone white pawn on e2 (rank 1, file 4). -/
def c1Board : Board := fun r f =>
  if r = 1 ∧ f = 4 then some ⟨PType.P, Color.white⟩ else none

def startPos : Board × GameState := parseFenD STARTING_FEN

def e2e4Move : Move := ⟨(1, 4), (3, 4), none, false, false, true⟩

def c5Fen : String := "4k3/8/7R/8/8/8/8/4K3 w KQkq - 0 1"

def c6Fen : String := "k7/8/8/8/8/8/5p2/4K2R w K - 0 1"

def scholarsFen : String := "r1bqkb1r/pppp1Qpp/2n2n2/4p3/2B1P3/8/PPPP1PPP/RNB1K1NR b KQkq - 0 4"

def stalemateFen : String := "7k/5Q2/6K1/8/8/8/8/8 b - - 0 1"

/-- White pawn e5, black pawn d5, black knight on the en-passant target d6,
kings on e1/e8; the en-passant target d6 = (5, 3) is occupied. -/
def epTrapBoard : Board := fun r f =>
  if r = 4 ∧ f = 4 then some ⟨PType.P, Color.white⟩
  else if r = 4 ∧ f = 3 then some ⟨PType.P, Color.black⟩
  else if r = 5 ∧ f = 3 then some ⟨PType.N, Color.black⟩
  else if r = 0 ∧ f = 4 then some ⟨PType.K, Color.white⟩
  else if r = 7 ∧ f = 4 then some ⟨PType.K, Color.black⟩
  else none

def epTrapState : GameState := ⟨Color.white, [], some (5, 3), 0, 1⟩

def epTrapMove : Move := ⟨(4, 4), (5, 3), none, false, true, false⟩

/-- Two bare kings, White to move. -/
def twoKingsBoard : Board := fun r f =>
  if r = 0 ∧ f = 4 then some ⟨PType.K, Color.white⟩
  else if r = 7 ∧ f = 4 then some ⟨PType.K, Color.black⟩
  else none

def twoKingsState : GameState := ⟨Color.white, [], none, 0, 1⟩

/-- White pawn c5, black pawn b5, black bishop on the en-passant target
b6 = (5, 1), kings tucked away: the en-passant destination is occupied. -/
def c7TrapBoard : Board := fun r f =>
  if r = 4 ∧ f = 2 then some ⟨PType.P, Color.white⟩
  else if r = 4 ∧ f = 1 then some ⟨PType.P, Color.black⟩
  else if r = 5 ∧ f = 1 then some ⟨PType.B, Color.black⟩
  else if r = 0 ∧ f = 7 then some ⟨PType.K, Color.white⟩
  else if r = 7 ∧ f = 7 then some ⟨PType.K, Color.black⟩
  else none

def c7TrapState : GameState := ⟨Color.white, [], some (5, 1), 0, 1⟩

def c7TrapMove : Move := ⟨(4, 2), (5, 1), none, false, true, false⟩

/-- White pawn e5, black pawn d5 which has just double-pushed (en-passant
target d6 = (5, 3) empty), kings far away. -/
def epCleanBoard : Board := fun r f =>
  if r = 4 ∧ f = 4 then some ⟨PType.P, Color.white⟩
  else if r = 4 ∧ f = 3 then some ⟨PType.P, Color.black⟩
  else if r = 0 ∧ f = 0 then some ⟨PType.K, Color.white⟩
  else if r = 7 ∧ f = 7 then some ⟨PType.K, Color.black⟩
  else none

def epCleanState : GameState := ⟨Color.white, [], some (5, 3), 0, 1⟩

def epCleanMove : Move := ⟨(4, 4), (5, 3), none, false, true, false⟩

/-- A board whose only piece is a white pawn: White has no king. -/
def lonePawnBoard : Board := fun r f =>
  if r = 3 ∧ f = 3 then some ⟨PType.P, Color.white⟩ else none

def lonePawnState : GameState := ⟨Color.white, [], none, 0, 1⟩

theorem is_valid_square_iff {r f : Int} :
    is_valid_square r f = true ↔ 0 ≤ r ∧ r < 8 ∧ 0 ≤ f ∧ f < 8 := by
  simp [is_valid_square]

theorem set_piece_at_apply (b : Board) (r0 f0 : Int) (p : Option Piece) (r f : Int) :
    set_piece_at b r0 f0 p r f =
      if is_valid_square r0 f0 = true ∧ r = r0 ∧ f = f0 then p else b r f := by
  unfold set_piece_at
  by_cases h : is_valid_square r0 f0 = true
  · simp only [h, if_true, true_and]
  · simp only [h, if_false, false_and]
    simp [h]

theorem clear_square_apply (b : Board) (r0 f0 : Int) (r f : Int) :
    clear_square b r0 f0 r f =
      if is_valid_square r0 f0 = true ∧ r = r0 ∧ f = f0 then none else b r f := by
  unfold clear_square
  exact set_piece_at_apply b r0 f0 none r f

theorem get_piece_at_eq_some {b : Board} {r f : Int} {p : Piece}
    (h : get_piece_at b r f = some p) :
    is_valid_square r f = true ∧ b r f = some p := by
  unfold get_piece_at at h
  by_cases hv : is_valid_square r f = true
  · rw [if_pos hv] at h
    exact ⟨hv, h⟩
  · rw [if_neg hv] at h
    cases h

theorem get_piece_at_of_valid {b : Board} {r f : Int}
    (hv : is_valid_square r f = true) : get_piece_at b r f = b r f := by
  unfold get_piece_at
  rw [if_pos hv]

theorem oppColor_oppColor (c : Color) : oppColor (oppColor c) = c := by
  cases c <;> rfl

theorem mem_allSquares_bounds {q : Int × Int} (h : q ∈ allSquares) :
    0 ≤ q.1 ∧ q.1 < 8 ∧ 0 ≤ q.2 ∧ q.2 < 8 := by
  have hall : ∀ q2 ∈ allSquares, 0 ≤ q2.1 ∧ q2.1 < 8 ∧ 0 ≤ q2.2 ∧ q2.2 < 8 := by decide
  exact hall q h

theorem mem_pseudoMoves {b : Board} {s : GameState} {fsq : Option (Int × Int)}
    {m : Move} (h : m ∈ pseudoMoves b s fsq) :
    ∃ r f p, (0 ≤ r ∧ r < 8 ∧ 0 ≤ f ∧ f < 8) ∧ get_piece_at b r f = some p ∧
      p.color = s.side_to_move ∧ m ∈ pseudo_legal_moves_for_piece b s p r f := by
  unfold pseudoMoves at h
  rw [List.mem_flatMap] at h
  obtain ⟨q, hq, hm⟩ := h
  have hb := mem_allSquares_bounds hq
  refine ⟨q.1, q.2, ?_⟩
  split at hm
  · revert hm
    cases hgp : get_piece_at b q.1 q.2 with
    | none => intro hm; cases hm
    | some p =>
      intro hm
      have hm2 : m ∈ (if p.color = s.side_to_move then
          pseudo_legal_moves_for_piece b s p q.1 q.2 else []) := hm
      by_cases hc : p.color = s.side_to_move
      · rw [if_pos hc] at hm2
        exact ⟨p, hb, rfl, hc, hm2⟩
      · rw [if_neg hc] at hm2
        cases hm2
  · cases hm

theorem kk_moves_facts {b : Board} {c : Color} {r f : Int} {deltas : List (Int × Int)}
    {m : Move} (hd : ∀ d ∈ deltas, ¬(d.1 = 0 ∧ d.2 = 0))
    (hm : m ∈ pseudo_legal_knight_king_moves b c r f deltas) :
    m.from_square = (r, f) ∧ m.promotion_piece = none ∧ m.is_castle = false ∧
      m.is_en_passant = false ∧
      is_valid_square m.to_square.1 m.to_square.2 = true ∧ m.to_square ≠ (r, f) := by
  unfold pseudo_legal_knight_king_moves at hm
  rw [List.mem_filterMap] at hm
  obtain ⟨d, hdm, hsome⟩ := hm
  have hdnz := hd d hdm
  have hne : (r + d.1, f + d.2) ≠ (r, f) := by
    intro heq
    rw [Prod.mk.injEq] at heq
    exact hdnz ⟨by omega, by omega⟩
  by_cases hv : is_valid_square (r + d.1) (f + d.2) = true
  · rw [if_pos hv] at hsome
    revert hsome
    cases hg : get_piece_at b (r + d.1) (f + d.2) with
    | none =>
      intro hsome
      injection hsome with hme
      subst hme
      exact ⟨rfl, rfl, rfl, rfl, hv, hne⟩
    | some t =>
      intro hsome
      have hsome2 : (if t.color ≠ c then
          some (⟨(r, f), (r + d.1, f + d.2), none, false, false, false⟩ : Move)
          else none) = some m := hsome
      by_cases ht : t.color ≠ c
      · rw [if_pos ht] at hsome2
        injection hsome2 with hme
        subst hme
        exact ⟨rfl, rfl, rfl, rfl, hv, hne⟩
      · rw [if_neg ht] at hsome2
        cases hsome2
  · rw [if_neg hv] at hsome
    cases hsome

theorem slideMoves_facts {b : Board} {c : Color} {r0 f0 dr df : Int}
    (hdnz : ¬(dr = 0 ∧ df = 0)) :
    ∀ (fuel : Nat) (r f : Int) (k : Nat), 1 ≤ k → r = r0 + k * dr → f = f0 + k * df →
    ∀ m ∈ slideMoves b c r0 f0 dr df fuel r f,
      m.from_square = (r0, f0) ∧ m.promotion_piece = none ∧ m.is_castle = false ∧
      m.is_en_passant = false ∧ is_valid_square m.to_square.1 m.to_square.2 = true ∧
      m.to_square ≠ (r0, f0) := by
  intro fuel
  induction fuel with
  | zero =>
    intro r f k hk hr hf m hm
    simp only [slideMoves] at hm
    cases hm
  | succ n ih =>
    intro r f k hk hr hf m hm
    have hne : (r, f) ≠ (r0, f0) := by
      intro heq
      rw [Prod.mk.injEq] at heq
      have hdr : (k : Int) * dr = 0 := by omega
      have hdf : (k : Int) * df = 0 := by omega
      have hk0 : (k : Int) ≠ 0 := by
        simp only [ne_eq, Int.natCast_eq_zero]
        omega
      rcases mul_eq_zero.mp hdr with h | h
      · exact hk0 h
      rcases mul_eq_zero.mp hdf with h2 | h2
      · exact hk0 h2
      exact hdnz ⟨h, h2⟩
    simp only [slideMoves] at hm
    by_cases hv : is_valid_square r f = true
    · rw [if_pos hv] at hm
      revert hm
      cases hg : get_piece_at b r f with
      | none =>
        intro hm
        rcases List.mem_cons.mp hm with hm | hm
        · subst hm
          exact ⟨rfl, rfl, rfl, rfl, hv, hne⟩
        · refine ih (r + dr) (f + df) (k + 1) (by omega) ?_ ?_ m hm
          · rw [hr]
            push_cast
            ring
          · rw [hf]
            push_cast
            ring
      | some t =>
        intro hm
        have hm2 : m ∈ (if t.color ≠ c then
            [(⟨(r0, f0), (r, f), none, false, false, false⟩ : Move)] else []) := hm
        by_cases ht : t.color ≠ c
        · rw [if_pos ht] at hm2
          rcases List.mem_singleton.mp hm2 with rfl
          exact ⟨rfl, rfl, rfl, rfl, hv, hne⟩
        · rw [if_neg ht] at hm2
          cases hm2
    · rw [if_neg hv] at hm
      cases hm

theorem sliding_moves_facts {b : Board} {c : Color} {r0 f0 : Int}
    {deltas : List (Int × Int)} {m : Move}
    (hd : ∀ d ∈ deltas, ¬(d.1 = 0 ∧ d.2 = 0))
    (hm : m ∈ pseudo_legal_sliding_moves b c r0 f0 deltas) :
    m.from_square = (r0, f0) ∧ m.promotion_piece = none ∧ m.is_castle = false ∧
      m.is_en_passant = false ∧ is_valid_square m.to_square.1 m.to_square.2 = true ∧
      m.to_square ≠ (r0, f0) := by
  unfold pseudo_legal_sliding_moves at hm
  rw [List.mem_flatMap] at hm
  obtain ⟨d, hdm, hm⟩ := hm
  exact slideMoves_facts (hd d hdm) 8 (r0 + d.1) (f0 + d.2) 1 (by omega)
    (by push_cast; ring) (by push_cast; ring) m hm

theorem mem_promoFan {a c : Int × Int} {m : Move} (h : m ∈ promoFan a c) :
    ∃ pt, pt ∈ promotionPieces ∧ m = ⟨a, c, some pt, false, false, false⟩ := by
  unfold promoFan at h
  rw [List.mem_map] at h
  obtain ⟨pt, hpt, rfl⟩ := h
  exact ⟨pt, hpt, rfl⟩

theorem pawnDirection_ne_zero (c : Color) : pawnDirection c ≠ 0 := by
  cases c <;> simp [pawnDirection]

theorem pawn_moves_facts {b : Board} {s : GameState} {c : Color} {r0 f0 : Int}
    {m : Move} (hb0 : 0 ≤ r0 ∧ r0 < 8 ∧ 0 ≤ f0 ∧ f0 < 8)
    (hm : m ∈ pseudo_legal_pawn_moves b s c r0 f0) :
    m.from_square = (r0, f0) ∧ m.is_castle = false ∧
    (∀ pt, m.promotion_piece = some pt → pt ∈ promotionPieces) ∧
    (m.is_en_passant = false → is_valid_square m.to_square.1 m.to_square.2 = true) ∧
    (m.is_en_passant = true → m.promotion_piece = none ∧
      s.en_passant_target = some m.to_square ∧
      m.to_square.1 = r0 + pawnDirection c ∧ (f0 - m.to_square.2).natAbs = 1) ∧
    m.to_square ≠ (r0, f0) := by
  have hd0 : pawnDirection c ≠ 0 := pawnDirection_ne_zero c
  simp only [pseudo_legal_pawn_moves] at hm
  rw [List.mem_append, List.mem_append] at hm
  rcases hm with (hm | hm) | hm
  · -- forward pushes
    split at hm
    case isTrue hg =>
      split at hm
      case isTrue hpr =>
        obtain ⟨pt, hpt, rfl⟩ := mem_promoFan hm
        refine ⟨rfl, rfl, ?_, ?_, ?_, ?_⟩
        · intro pt2 hpt2
          injection hpt2 with he
          subst he
          exact hpt
        · intro _
          exact hg.1
        · intro h
          simp at h
        · intro heq
          rw [Prod.mk.injEq] at heq
          exact hd0 (by omega)
      case isFalse hpr =>
        rcases List.mem_cons.mp hm with rfl | hm
        · refine ⟨rfl, rfl, ?_, ?_, ?_, ?_⟩
          · intro pt2 hpt2
            cases hpt2
          · intro _
            exact hg.1
          · intro h
            simp at h
          · intro heq
            rw [Prod.mk.injEq] at heq
            exact hd0 (by omega)
        · split at hm
          case isTrue hst =>
            split at hm
            case isTrue hemp =>
              rcases List.mem_singleton.mp hm with rfl
              refine ⟨rfl, rfl, ?_, ?_, ?_, ?_⟩
              · intro pt2 hpt2
                cases hpt2
              · intro _
                rw [is_valid_square_iff]
                cases c <;> simp [pawnStartRank] at hst <;>
                  simp [pawnDirection] <;> omega
              · intro h
                simp at h
              · intro heq
                rw [Prod.mk.injEq] at heq
                exact hd0 (by omega)
            case isFalse => cases hm
          case isFalse => cases hm
    case isFalse => cases hm
  · -- diagonal captures
    rw [List.mem_flatMap] at hm
    obtain ⟨df, hdf, hm⟩ := hm
    have hdfv : df = -1 ∨ df = 1 := by
      rcases List.mem_cons.mp hdf with h | h
      · exact Or.inl h
      rcases List.mem_singleton.mp h with rfl
      exact Or.inr rfl
    split at hm
    case isTrue hv =>
      revert hm
      cases hg : get_piece_at b (r0 + pawnDirection c) (f0 + df) with
      | none =>
        intro hm
        cases hm
      | some t =>
        intro hm
        have hm2 : m ∈ (if t.color ≠ c then
            (if r0 + pawnDirection c = 0 ∨ r0 + pawnDirection c = 7 then
              promoFan (r0, f0) (r0 + pawnDirection c, f0 + df)
             else [⟨(r0, f0), (r0 + pawnDirection c, f0 + df), none, false, false, false⟩])
            else []) := hm
        by_cases ht : t.color ≠ c
        · rw [if_pos ht] at hm2
          split at hm2
          · obtain ⟨pt, hpt, rfl⟩ := mem_promoFan hm2
            refine ⟨rfl, rfl, ?_, ?_, ?_, ?_⟩
            · intro pt2 hpt2
              injection hpt2 with he
              subst he
              exact hpt
            · intro _
              exact hv
            · intro h
              simp at h
            · intro heq
              rw [Prod.mk.injEq] at heq
              exact hd0 (by omega)
          · rcases List.mem_singleton.mp hm2 with rfl
            refine ⟨rfl, rfl, ?_, ?_, ?_, ?_⟩
            · intro pt2 hpt2
              cases hpt2
            · intro _
              exact hv
            · intro h
              simp at h
            · intro heq
              rw [Prod.mk.injEq] at heq
              exact hd0 (by omega)
        · rw [if_neg ht] at hm2
          cases hm2
    case isFalse => cases hm
  · -- en passant
    revert hm
    cases hept : s.en_passant_target with
    | none =>
      intro hm
      cases hm
    | some e =>
      intro hm
      have hm2 : m ∈ (if r0 + pawnDirection c = e.1 ∧ (f0 - e.2).natAbs = 1 then
          [(⟨(r0, f0), e, none, false, true, false⟩ : Move)] else []) := hm
      by_cases hge : r0 + pawnDirection c = e.1 ∧ (f0 - e.2).natAbs = 1
      · rw [if_pos hge] at hm2
        rcases List.mem_singleton.mp hm2 with rfl
        refine ⟨rfl, rfl, ?_, ?_, ?_, ?_⟩
        · intro pt2 hpt2
          cases hpt2
        · intro h
          simp at h
        · intro _
          exact ⟨rfl, rfl, hge.1.symm, hge.2⟩
        · intro heq
          have heq2 : e = (r0, f0) := heq
          have he1 : e.1 = r0 := by
            rw [heq2]
          omega
      · rw [if_neg hge] at hm2
        cases hm2

theorem castling_facts {b : Board} {s : GameState} {c : Color} {r0 f0 : Int}
    {p : Piece} {m : Move} (hb0 : 0 ≤ r0 ∧ r0 < 8 ∧ 0 ≤ f0 ∧ f0 < 8)
    (hp : get_piece_at b r0 f0 = some p)
    (hm : m ∈ pseudo_legal_castling b s c r0 f0) :
    m.from_square = (r0, f0) ∧ m.promotion_piece = none ∧ m.is_castle = true ∧
    m.is_en_passant = false ∧ m.to_square.1 = r0 ∧
    is_valid_square m.to_square.1 m.to_square.2 = true ∧ m.to_square ≠ (r0, f0) ∧
    ((m.to_square.2 = 6 ∧ get_piece_at b r0 5 = none ∧ get_piece_at b r0 6 = none) ∨
     (m.to_square.2 = 2 ∧ get_piece_at b r0 1 = none ∧ get_piece_at b r0 2 = none ∧
       get_piece_at b r0 3 = none)) := by
  have hks : ∀ (hg5 : get_piece_at b r0 5 = none) (hg6 : get_piece_at b r0 6 = none),
      m = ⟨(r0, f0), (r0, 6), none, true, false, false⟩ →
      m.from_square = (r0, f0) ∧ m.promotion_piece = none ∧ m.is_castle = true ∧
      m.is_en_passant = false ∧ m.to_square.1 = r0 ∧
      is_valid_square m.to_square.1 m.to_square.2 = true ∧ m.to_square ≠ (r0, f0) ∧
      ((m.to_square.2 = 6 ∧ get_piece_at b r0 5 = none ∧ get_piece_at b r0 6 = none) ∨
       (m.to_square.2 = 2 ∧ get_piece_at b r0 1 = none ∧ get_piece_at b r0 2 = none ∧
         get_piece_at b r0 3 = none)) := by
    intro hg5 hg6 hme
    subst hme
    have hf06 : f0 ≠ 6 := by
      intro hf
      subst hf
      rw [hp] at hg6
      cases hg6
    refine ⟨rfl, rfl, rfl, rfl, rfl, ?_, ?_, Or.inl ⟨rfl, hg5, hg6⟩⟩
    · show is_valid_square r0 6 = true
      rw [is_valid_square_iff]
      omega
    · intro heq
      rw [Prod.mk.injEq] at heq
      exact hf06 heq.2.symm
  have hqs : ∀ (hg1 : get_piece_at b r0 1 = none) (hg2 : get_piece_at b r0 2 = none)
      (hg3 : get_piece_at b r0 3 = none),
      m = ⟨(r0, f0), (r0, 2), none, true, false, false⟩ →
      m.from_square = (r0, f0) ∧ m.promotion_piece = none ∧ m.is_castle = true ∧
      m.is_en_passant = false ∧ m.to_square.1 = r0 ∧
      is_valid_square m.to_square.1 m.to_square.2 = true ∧ m.to_square ≠ (r0, f0) ∧
      ((m.to_square.2 = 6 ∧ get_piece_at b r0 5 = none ∧ get_piece_at b r0 6 = none) ∨
       (m.to_square.2 = 2 ∧ get_piece_at b r0 1 = none ∧ get_piece_at b r0 2 = none ∧
         get_piece_at b r0 3 = none)) := by
    intro hg1 hg2 hg3 hme
    subst hme
    have hf02 : f0 ≠ 2 := by
      intro hf
      subst hf
      rw [hp] at hg2
      cases hg2
    refine ⟨rfl, rfl, rfl, rfl, rfl, ?_, ?_, Or.inr ⟨rfl, hg1, hg2, hg3⟩⟩
    · show is_valid_square r0 2 = true
      rw [is_valid_square_iff]
      omega
    · intro heq
      rw [Prod.mk.injEq] at heq
      exact hf02 heq.2.symm
  cases c <;>
    · simp only [pseudo_legal_castling] at hm
      rw [List.mem_append] at hm
      rcases hm with hm | hm
      · split at hm
        case isTrue hg =>
          rcases List.mem_singleton.mp hm with rfl
          exact hks hg.2.1 hg.2.2.1 rfl
        case isFalse => cases hm
      · split at hm
        case isTrue hg =>
          rcases List.mem_singleton.mp hm with rfl
          exact hqs hg.2.1 hg.2.2.1 hg.2.2.2.1 rfl
        case isFalse => cases hm

theorem genFacts_of_mem_pseudo {b : Board} {s : GameState} {fsq : Option (Int × Int)}
    {m : Move} (h : m ∈ pseudoMoves b s fsq) : GenFacts b s m := by
  obtain ⟨r, f, p, hb0, hgp, hc, hm⟩ := mem_pseudoMoves h
  obtain ⟨hvrf, hraw⟩ := get_piece_at_eq_some hgp
  unfold pseudo_legal_moves_for_piece at hm
  have hkkfacts : ∀ deltas, (∀ d ∈ deltas, ¬(d.1 = 0 ∧ d.2 = 0)) →
      m ∈ pseudo_legal_knight_king_moves b p.color r f deltas → GenFacts b s m := by
    intro deltas hd hmk
    obtain ⟨hfrom, hpr, hcst, hep, hvt, hnt⟩ := kk_moves_facts hd hmk
    refine ⟨?_, ?_, ?_, ?_, ?_, ?_, ?_⟩
    · rw [hfrom]
      exact hvrf
    · refine ⟨p, ?_, hc, ?_, ?_⟩
      · rw [hfrom]
        exact hraw
      · intro pt hpt
        rw [hpr] at hpt
        cases hpt
      · intro hcT
        rw [hcst] at hcT
        cases hcT
    · intro pt hpt
      rw [hpr] at hpt
      cases hpt
    · rw [hfrom]
      exact fun he => hnt he.symm
    · intro _
      exact hvt
    · intro hepT
      rw [hep] at hepT
      cases hepT
    · intro hcT
      rw [hcst] at hcT
      cases hcT
  cases hpt : p.ptype with
  | P =>
    rw [hpt] at hm
    have hm2 : m ∈ pseudo_legal_pawn_moves b s p.color r f := hm
    obtain ⟨hfrom, hcst, hprm, hvt, hepf, hnt⟩ := pawn_moves_facts hb0 hm2
    have hd0 : pawnDirection p.color ≠ 0 := pawnDirection_ne_zero p.color
    refine ⟨?_, ?_, hprm, ?_, hvt, ?_, ?_⟩
    · rw [hfrom]
      exact hvrf
    · refine ⟨p, ?_, hc, fun _ _ => hpt, ?_⟩
      · rw [hfrom]
        exact hraw
      · intro hcT
        rw [hcst] at hcT
        cases hcT
    · rw [hfrom]
      exact fun he => hnt he.symm
    · intro hepT
      obtain ⟨hpr, htg, ht1, ht2⟩ := hepf hepT
      refine ⟨hcst, hpr, htg, ?_, ?_⟩
      · rw [hfrom, ht1]
        show r + pawnDirection p.color ≠ r
        omega
      · rw [hfrom]
        show m.to_square.2 ≠ f
        omega
    · intro hcT
      rw [hcst] at hcT
      cases hcT
  | N =>
    rw [hpt] at hm
    exact hkkfacts knightDeltas (by decide) hm
  | B =>
    rw [hpt] at hm
    have hm2 : m ∈ pseudo_legal_sliding_moves b p.color r f bishopDeltas := hm
    obtain ⟨hfrom, hpr, hcst, hep, hvt, hnt⟩ := sliding_moves_facts (by decide) hm2
    refine ⟨?_, ?_, ?_, ?_, ?_, ?_, ?_⟩
    · rw [hfrom]
      exact hvrf
    · refine ⟨p, ?_, hc, ?_, ?_⟩
      · rw [hfrom]
        exact hraw
      · intro pt2 hpt2
        rw [hpr] at hpt2
        cases hpt2
      · intro hcT
        rw [hcst] at hcT
        cases hcT
    · intro pt2 hpt2
      rw [hpr] at hpt2
      cases hpt2
    · rw [hfrom]
      exact fun he => hnt he.symm
    · intro _
      exact hvt
    · intro hepT
      rw [hep] at hepT
      cases hepT
    · intro hcT
      rw [hcst] at hcT
      cases hcT
  | R =>
    rw [hpt] at hm
    have hm2 : m ∈ pseudo_legal_sliding_moves b p.color r f rookDeltas := hm
    obtain ⟨hfrom, hpr, hcst, hep, hvt, hnt⟩ := sliding_moves_facts (by decide) hm2
    refine ⟨?_, ?_, ?_, ?_, ?_, ?_, ?_⟩
    · rw [hfrom]
      exact hvrf
    · refine ⟨p, ?_, hc, ?_, ?_⟩
      · rw [hfrom]
        exact hraw
      · intro pt2 hpt2
        rw [hpr] at hpt2
        cases hpt2
      · intro hcT
        rw [hcst] at hcT
        cases hcT
    · intro pt2 hpt2
      rw [hpr] at hpt2
      cases hpt2
    · rw [hfrom]
      exact fun he => hnt he.symm
    · intro _
      exact hvt
    · intro hepT
      rw [hep] at hepT
      cases hepT
    · intro hcT
      rw [hcst] at hcT
      cases hcT
  | Q =>
    rw [hpt] at hm
    have hm2 : m ∈ pseudo_legal_sliding_moves b p.color r f queenDeltas := hm
    obtain ⟨hfrom, hpr, hcst, hep, hvt, hnt⟩ := sliding_moves_facts (by decide) hm2
    refine ⟨?_, ?_, ?_, ?_, ?_, ?_, ?_⟩
    · rw [hfrom]
      exact hvrf
    · refine ⟨p, ?_, hc, ?_, ?_⟩
      · rw [hfrom]
        exact hraw
      · intro pt2 hpt2
        rw [hpr] at hpt2
        cases hpt2
      · intro hcT
        rw [hcst] at hcT
        cases hcT
    · intro pt2 hpt2
      rw [hpr] at hpt2
      cases hpt2
    · rw [hfrom]
      exact fun he => hnt he.symm
    · intro _
      exact hvt
    · intro hepT
      rw [hep] at hepT
      cases hepT
    · intro hcT
      rw [hcst] at hcT
      cases hcT
  | K =>
    rw [hpt] at hm
    have hm2 : m ∈ pseudo_legal_knight_king_moves b p.color r f kingDeltas ++
        pseudo_legal_castling b s p.color r f := hm
    rcases List.mem_append.mp hm2 with hmk | hmc
    · exact hkkfacts kingDeltas (by decide) hmk
    · obtain ⟨hfrom, hpr, hcst, hep, ht1, hvt, hnt, hsh⟩ := castling_facts hb0 hgp hmc
      have hv5 : is_valid_square r 5 = true := by
        rw [is_valid_square_iff]
        omega
      have hv3 : is_valid_square r 3 = true := by
        rw [is_valid_square_iff]
        omega
      have hv6 : is_valid_square r 6 = true := by
        rw [is_valid_square_iff]
        omega
      have hv2 : is_valid_square r 2 = true := by
        rw [is_valid_square_iff]
        omega
      refine ⟨?_, ?_, ?_, ?_, ?_, ?_, ?_⟩
      · rw [hfrom]
        exact hvrf
      · refine ⟨p, ?_, hc, ?_, fun _ => hpt⟩
        · rw [hfrom]
          exact hraw
        · intro pt2 hpt2
          rw [hpr] at hpt2
          cases hpt2
      · intro pt2 hpt2
        rw [hpr] at hpt2
        cases hpt2
      · rw [hfrom]
        exact fun he => hnt he.symm
      · intro _
        exact hvt
      · intro hepT
        rw [hep] at hepT
        cases hepT
      · intro _
        refine ⟨hep, hpr, ?_, ?_⟩
        · rw [hfrom]
          exact ht1
        · rw [hfrom]
          rcases hsh with ⟨h6, h5, h6e⟩ | ⟨h2, _, h2e, h3⟩
          · refine Or.inl ⟨h6, ?_, ?_⟩
            · rw [get_piece_at_of_valid hv5] at h5
              exact h5
            · rw [get_piece_at_of_valid hv6] at h6e
              exact h6e
          · refine Or.inr ⟨h2, ?_, ?_⟩
            · rw [get_piece_at_of_valid hv3] at h3
              exact h3
            · rw [get_piece_at_of_valid hv2] at h2e
              exact h2e

theorem get_set_same {b : Board} {r f : Int} (p : Option Piece)
    (hv : is_valid_square r f = true) :
    get_piece_at (set_piece_at b r f p) r f = p := by
  rw [get_piece_at_of_valid hv, set_piece_at_apply]
  simp [hv]

theorem piece_eq_pawn {p : Piece} (h : p.ptype = PType.P) :
    p = ⟨PType.P, p.color⟩ := by
  rcases p with ⟨t, c⟩
  simp only [Piece.mk.injEq]
  exact ⟨h, trivial⟩

theorem undo_fullmove_eq (side : Color) (fm : Int) :
    (if oppColor (oppColor side) = Color.black then
      (if oppColor side = Color.white then fm + 1 else fm) - 1
     else (if oppColor side = Color.white then fm + 1 else fm)) = fm := by
  cases side <;> simp [oppColor]

theorem undoMoveWith_state (b1 : Board) (s1 : GameState) (m : Move) (u : UndoInfo)
    (pc : Piece) :
    (undoMoveWith b1 s1 m u pc).2 =
      ⟨oppColor s1.side_to_move, u.prev_castling, u.prev_ep, u.prev_halfmove,
       if oppColor s1.side_to_move = Color.black then s1.fullmove_number - 1
       else s1.fullmove_number⟩ := rfl

theorem applyMoveWith_side (b : Board) (s : GameState) (m : Move) (p : Piece) :
    (applyMoveWith b s m p).2.1.side_to_move = oppColor s.side_to_move := rfl

theorem applyMoveWith_fullmove (b : Board) (s : GameState) (m : Move) (p : Piece) :
    (applyMoveWith b s m p).2.1.fullmove_number =
      (if oppColor s.side_to_move = Color.white then s.fullmove_number + 1
       else s.fullmove_number) := rfl

theorem applyMoveWith_prev_castling (b : Board) (s : GameState) (m : Move) (p : Piece) :
    (applyMoveWith b s m p).2.2.prev_castling = s.castling_rights := rfl

theorem applyMoveWith_prev_ep (b : Board) (s : GameState) (m : Move) (p : Piece) :
    (applyMoveWith b s m p).2.2.prev_ep = s.en_passant_target := rfl

theorem applyMoveWith_prev_halfmove (b : Board) (s : GameState) (m : Move) (p : Piece) :
    (applyMoveWith b s m p).2.2.prev_halfmove = s.halfmove_clock := rfl

/-- Undo always restores the five GameState fields, whatever the move was:
side and fullmove are algebraically reversed, the rest comes back verbatim
from the undo record. -/
theorem roundTrip_state_eq (b : Board) (s : GameState) (m : Move) (p pc : Piece) :
    (undoMoveWith (applyMoveWith b s m p).1 (applyMoveWith b s m p).2.1 m
      (applyMoveWith b s m p).2.2 pc).2 = s := by
  rcases s with ⟨side, cr, ept, hc, fm⟩
  rw [undoMoveWith_state]
  simp only [applyMoveWith_side, applyMoveWith_prev_castling, applyMoveWith_prev_ep,
    applyMoveWith_prev_halfmove, applyMoveWith_fullmove]
  simp only [GameState.mk.injEq]
  refine ⟨oppColor_oppColor side, trivial, trivial, trivial, ?_⟩
  exact undo_fullmove_eq side fm

theorem roundTrip_plain (b : Board) (s : GameState) (r0 f0 r1 f1 : Int)
    (promo : Option PType) (dbl : Bool) (p : Piece)
    (hraw0 : b r0 f0 = some p) (hv0 : is_valid_square r0 f0 = true)
    (hv1 : is_valid_square r1 f1 = true)
    (hne : ¬(r1 = r0 ∧ f1 = f0))
    (hpromo : ∀ pt, promo = some pt → p.ptype = PType.P) :
    ∃ b2 s2,
      roundTrip b s ⟨(r0, f0), (r1, f1), promo, false, false, dbl⟩ = some (b2, s2) ∧
      (∀ r f, b2 r f = b r f) ∧ s2 = s := by
  have hp : get_piece_at b r0 f0 = some p := by
    rw [get_piece_at_of_valid hv0]
    exact hraw0
  have hrestored : (if promo.isSome then (⟨PType.P, (promoPay promo p).color⟩ : Piece)
      else promoPay promo p) = p := by
    cases promo with
    | none => rfl
    | some pt =>
      have hpp := piece_eq_pawn (hpromo pt rfl)
      simp only [promoPay, Option.isSome_some, if_true]
      exact hpp.symm
  cases hcap : b r1 f1 with
  | none =>
    have hg1 : get_piece_at b r1 f1 = none := by
      rw [get_piece_at_of_valid hv1, hcap]
    have hWb : (applyMoveWith b s ⟨(r0, f0), (r1, f1), promo, false, false, dbl⟩ p).1 =
        set_piece_at (clear_square b r0 f0) r1 f1 (some (promoPay promo p)) := by
      cases promo <;> simp [applyMoveWith, hg1, promoPay]
    have hWcap : (applyMoveWith b s ⟨(r0, f0), (r1, f1), promo, false, false, dbl⟩
        p).2.2.captured_piece = none := by
      simp [applyMoveWith, hg1]
    have hund : get_piece_at
        (applyMoveWith b s ⟨(r0, f0), (r1, f1), promo, false, false, dbl⟩ p).1 r1 f1 =
        some (promoPay promo p) := by
      rw [hWb]
      exact get_set_same _ hv1
    have hrt : roundTrip b s ⟨(r0, f0), (r1, f1), promo, false, false, dbl⟩ =
        some (undoMoveWith
          (applyMoveWith b s ⟨(r0, f0), (r1, f1), promo, false, false, dbl⟩ p).1
          (applyMoveWith b s ⟨(r0, f0), (r1, f1), promo, false, false, dbl⟩ p).2.1
          ⟨(r0, f0), (r1, f1), promo, false, false, dbl⟩
          (applyMoveWith b s ⟨(r0, f0), (r1, f1), promo, false, false, dbl⟩ p).2.2
          (promoPay promo p)) := by
      simp only [roundTrip, apply_move, hp, Option.map_some']
      simp only [Option.some_bind, undo_move, hund, Option.map_some']
    have hub : (undoMoveWith
        (applyMoveWith b s ⟨(r0, f0), (r1, f1), promo, false, false, dbl⟩ p).1
        (applyMoveWith b s ⟨(r0, f0), (r1, f1), promo, false, false, dbl⟩ p).2.1
        ⟨(r0, f0), (r1, f1), promo, false, false, dbl⟩
        (applyMoveWith b s ⟨(r0, f0), (r1, f1), promo, false, false, dbl⟩ p).2.2
        (promoPay promo p)).1 =
        set_piece_at (clear_square
          (set_piece_at (clear_square b r0 f0) r1 f1 (some (promoPay promo p))) r1 f1)
          r0 f0 (some p) := by
      simp only [undoMoveWith, hWcap, hWb]
      cases promo with
      | none => simp [promoPay]
      | some pt =>
        simp only [Option.isSome_some, if_true]
        rw [show (⟨PType.P, (promoPay (some pt) p).color⟩ : Piece) = p from by
          have h2 : (if (some pt).isSome then
              (⟨PType.P, (promoPay (some pt) p).color⟩ : Piece)
              else promoPay (some pt) p) = p := hrestored
          simpa using h2]
    have hboard : ∀ r f, (undoMoveWith
        (applyMoveWith b s ⟨(r0, f0), (r1, f1), promo, false, false, dbl⟩ p).1
        (applyMoveWith b s ⟨(r0, f0), (r1, f1), promo, false, false, dbl⟩ p).2.1
        ⟨(r0, f0), (r1, f1), promo, false, false, dbl⟩
        (applyMoveWith b s ⟨(r0, f0), (r1, f1), promo, false, false, dbl⟩ p).2.2
        (promoPay promo p)).1 r f = b r f := by
      intro r f
      rw [hub]
      simp only [set_piece_at_apply, clear_square_apply, hv0, hv1, true_and]
      split_ifs with h1 h2
      · obtain ⟨rfl, rfl⟩ := h1
        exact hraw0.symm
      · obtain ⟨rfl, rfl⟩ := h2
        exact hcap.symm
      · rfl
    exact ⟨_, _, hrt, hboard, roundTrip_state_eq b s _ p (promoPay promo p)⟩
  | some cp =>
    have hg1 : get_piece_at b r1 f1 = some cp := by
      rw [get_piece_at_of_valid hv1, hcap]
    have hWb : (applyMoveWith b s ⟨(r0, f0), (r1, f1), promo, false, false, dbl⟩ p).1 =
        set_piece_at (clear_square (clear_square b r1 f1) r0 f0) r1 f1
          (some (promoPay promo p)) := by
      cases promo <;> simp [applyMoveWith, hg1, promoPay]
    have hWcap : (applyMoveWith b s ⟨(r0, f0), (r1, f1), promo, false, false, dbl⟩
        p).2.2.captured_piece = some cp := by
      simp [applyMoveWith, hg1]
    have hWcapsq : (applyMoveWith b s ⟨(r0, f0), (r1, f1), promo, false, false, dbl⟩
        p).2.2.captured_square = (r1, f1) := rfl
    have hund : get_piece_at
        (applyMoveWith b s ⟨(r0, f0), (r1, f1), promo, false, false, dbl⟩ p).1 r1 f1 =
        some (promoPay promo p) := by
      rw [hWb]
      exact get_set_same _ hv1
    have hrt : roundTrip b s ⟨(r0, f0), (r1, f1), promo, false, false, dbl⟩ =
        some (undoMoveWith
          (applyMoveWith b s ⟨(r0, f0), (r1, f1), promo, false, false, dbl⟩ p).1
          (applyMoveWith b s ⟨(r0, f0), (r1, f1), promo, false, false, dbl⟩ p).2.1
          ⟨(r0, f0), (r1, f1), promo, false, false, dbl⟩
          (applyMoveWith b s ⟨(r0, f0), (r1, f1), promo, false, false, dbl⟩ p).2.2
          (promoPay promo p)) := by
      simp only [roundTrip, apply_move, hp, Option.map_some']
      simp only [Option.some_bind, undo_move, hund, Option.map_some']
    have hub : (undoMoveWith
        (applyMoveWith b s ⟨(r0, f0), (r1, f1), promo, false, false, dbl⟩ p).1
        (applyMoveWith b s ⟨(r0, f0), (r1, f1), promo, false, false, dbl⟩ p).2.1
        ⟨(r0, f0), (r1, f1), promo, false, false, dbl⟩
        (applyMoveWith b s ⟨(r0, f0), (r1, f1), promo, false, false, dbl⟩ p).2.2
        (promoPay promo p)).1 =
        set_piece_at (set_piece_at (clear_square
          (set_piece_at (clear_square (clear_square b r1 f1) r0 f0) r1 f1
            (some (promoPay promo p))) r1 f1)
          r0 f0 (some p)) r1 f1 (some cp) := by
      simp only [undoMoveWith, hWcap, hWcapsq, hWb]
      cases promo with
      | none => simp [promoPay]
      | some pt =>
        simp only [Option.isSome_some, if_true]
        rw [show (⟨PType.P, (promoPay (some pt) p).color⟩ : Piece) = p from by
          have h2 : (if (some pt).isSome then
              (⟨PType.P, (promoPay (some pt) p).color⟩ : Piece)
              else promoPay (some pt) p) = p := hrestored
          simpa using h2]
    have hboard : ∀ r f, (undoMoveWith
        (applyMoveWith b s ⟨(r0, f0), (r1, f1), promo, false, false, dbl⟩ p).1
        (applyMoveWith b s ⟨(r0, f0), (r1, f1), promo, false, false, dbl⟩ p).2.1
        ⟨(r0, f0), (r1, f1), promo, false, false, dbl⟩
        (applyMoveWith b s ⟨(r0, f0), (r1, f1), promo, false, false, dbl⟩ p).2.2
        (promoPay promo p)).1 r f = b r f := by
      intro r f
      rw [hub]
      simp only [set_piece_at_apply, clear_square_apply, hv0, hv1, true_and]
      split_ifs with h1 h2
      · obtain ⟨rfl, rfl⟩ := h1
        exact hcap.symm
      · obtain ⟨rfl, rfl⟩ := h2
        exact hraw0.symm
      · rfl
    exact ⟨_, _, hrt, hboard, roundTrip_state_eq b s _ p (promoPay promo p)⟩

theorem roundTrip_ep (b : Board) (s : GameState) (r0 f0 r1 f1 : Int) (dbl : Bool)
    (p : Piece)
    (hraw0 : b r0 f0 = some p) (hv0 : is_valid_square r0 f0 = true)
    (hv1 : is_valid_square r1 f1 = true)
    (hner : r1 ≠ r0) (hnef : f1 ≠ f0)
    (hepdst : b r1 f1 = none) :
    ∃ b2 s2,
      roundTrip b s ⟨(r0, f0), (r1, f1), none, false, true, dbl⟩ = some (b2, s2) ∧
      (∀ r f, b2 r f = b r f) ∧ s2 = s := by
  have hp : get_piece_at b r0 f0 = some p := by
    rw [get_piece_at_of_valid hv0]
    exact hraw0
  have hvc : is_valid_square r0 f1 = true := by
    rw [is_valid_square_iff] at hv0 hv1 ⊢
    omega
  have hgc : get_piece_at b r0 f1 = b r0 f1 := get_piece_at_of_valid hvc
  have hWb : (applyMoveWith b s ⟨(r0, f0), (r1, f1), none, false, true, dbl⟩ p).1 =
      set_piece_at (clear_square (clear_square b r0 f1) r0 f0) r1 f1 (some p) := by
    simp [applyMoveWith]
  have hWcap : (applyMoveWith b s ⟨(r0, f0), (r1, f1), none, false, true, dbl⟩
      p).2.2.captured_piece = b r0 f1 := by
    simp [applyMoveWith, hgc]
  have hWcapsq : (applyMoveWith b s ⟨(r0, f0), (r1, f1), none, false, true, dbl⟩
      p).2.2.captured_square = (r0, f1) := by
    simp [applyMoveWith]
  have hund : get_piece_at
      (applyMoveWith b s ⟨(r0, f0), (r1, f1), none, false, true, dbl⟩ p).1 r1 f1 =
      some p := by
    rw [hWb]
    exact get_set_same _ hv1
  have hrt : roundTrip b s ⟨(r0, f0), (r1, f1), none, false, true, dbl⟩ =
      some (undoMoveWith
        (applyMoveWith b s ⟨(r0, f0), (r1, f1), none, false, true, dbl⟩ p).1
        (applyMoveWith b s ⟨(r0, f0), (r1, f1), none, false, true, dbl⟩ p).2.1
        ⟨(r0, f0), (r1, f1), none, false, true, dbl⟩
        (applyMoveWith b s ⟨(r0, f0), (r1, f1), none, false, true, dbl⟩ p).2.2
        p) := by
    simp only [roundTrip, apply_move, hp, Option.map_some']
    simp only [Option.some_bind, undo_move, hund, Option.map_some']
  cases hepc : b r0 f1 with
  | some cp =>
    have hub : (undoMoveWith
        (applyMoveWith b s ⟨(r0, f0), (r1, f1), none, false, true, dbl⟩ p).1
        (applyMoveWith b s ⟨(r0, f0), (r1, f1), none, false, true, dbl⟩ p).2.1
        ⟨(r0, f0), (r1, f1), none, false, true, dbl⟩
        (applyMoveWith b s ⟨(r0, f0), (r1, f1), none, false, true, dbl⟩ p).2.2
        p).1 =
        set_piece_at (set_piece_at (clear_square
          (set_piece_at (clear_square (clear_square b r0 f1) r0 f0) r1 f1 (some p))
          r1 f1) r0 f0 (some p)) r0 f1 (some cp) := by
      rw [hepc] at hWcap
      simp only [undoMoveWith, hWcap, hWcapsq, hWb]
      simp
    have hboard : ∀ r f, (undoMoveWith
        (applyMoveWith b s ⟨(r0, f0), (r1, f1), none, false, true, dbl⟩ p).1
        (applyMoveWith b s ⟨(r0, f0), (r1, f1), none, false, true, dbl⟩ p).2.1
        ⟨(r0, f0), (r1, f1), none, false, true, dbl⟩
        (applyMoveWith b s ⟨(r0, f0), (r1, f1), none, false, true, dbl⟩ p).2.2
        p).1 r f = b r f := by
      intro r f
      rw [hub]
      simp only [set_piece_at_apply, clear_square_apply, hv0, hv1, hvc, true_and]
      split_ifs with h1 h2 h3
      · obtain ⟨rfl, rfl⟩ := h1
        exact hepc.symm
      · obtain ⟨rfl, rfl⟩ := h2
        exact hraw0.symm
      · obtain ⟨rfl, rfl⟩ := h3
        exact hepdst.symm
      · rfl
    exact ⟨_, _, hrt, hboard, roundTrip_state_eq b s _ p p⟩
  | none =>
    have hub : (undoMoveWith
        (applyMoveWith b s ⟨(r0, f0), (r1, f1), none, false, true, dbl⟩ p).1
        (applyMoveWith b s ⟨(r0, f0), (r1, f1), none, false, true, dbl⟩ p).2.1
        ⟨(r0, f0), (r1, f1), none, false, true, dbl⟩
        (applyMoveWith b s ⟨(r0, f0), (r1, f1), none, false, true, dbl⟩ p).2.2
        p).1 =
        set_piece_at (clear_square
          (set_piece_at (clear_square (clear_square b r0 f1) r0 f0) r1 f1 (some p))
          r1 f1) r0 f0 (some p) := by
      rw [hepc] at hWcap
      simp only [undoMoveWith, hWcap, hWcapsq, hWb]
      simp
    have hboard : ∀ r f, (undoMoveWith
        (applyMoveWith b s ⟨(r0, f0), (r1, f1), none, false, true, dbl⟩ p).1
        (applyMoveWith b s ⟨(r0, f0), (r1, f1), none, false, true, dbl⟩ p).2.1
        ⟨(r0, f0), (r1, f1), none, false, true, dbl⟩
        (applyMoveWith b s ⟨(r0, f0), (r1, f1), none, false, true, dbl⟩ p).2.2
        p).1 r f = b r f := by
      intro r f
      rw [hub]
      simp only [set_piece_at_apply, clear_square_apply, hv0, hv1, hvc, true_and]
      split_ifs with h1 h2 h3
      · obtain ⟨rfl, rfl⟩ := h1
        exact hraw0.symm
      · obtain ⟨rfl, rfl⟩ := h2
        exact hepdst.symm
      · obtain ⟨rfl, rfl⟩ := h3
        exact hepc.symm
      · rfl
    exact ⟨_, _, hrt, hboard, roundTrip_state_eq b s _ p p⟩

theorem roundTrip_castle_kingside (b : Board) (s : GameState) (r0 : Int) (dbl : Bool)
    (p : Piece)
    (hraw0 : b r0 4 = some p) (hv0 : is_valid_square r0 4 = true)
    (h5 : b r0 5 = none) (h6 : b r0 6 = none) :
    ∃ b2 s2,
      roundTrip b s ⟨(r0, 4), (r0, 6), none, true, false, dbl⟩ = some (b2, s2) ∧
      (∀ r f, b2 r f = b r f) ∧ s2 = s := by
  have hp : get_piece_at b r0 4 = some p := by
    rw [get_piece_at_of_valid hv0]
    exact hraw0
  have hv5 : is_valid_square r0 5 = true := by
    rw [is_valid_square_iff] at hv0 ⊢
    omega
  have hv6 : is_valid_square r0 6 = true := by
    rw [is_valid_square_iff] at hv0 ⊢
    omega
  have hv7 : is_valid_square r0 7 = true := by
    rw [is_valid_square_iff] at hv0 ⊢
    omega
  have hg26 : get_piece_at
      (set_piece_at (clear_square b r0 7) r0 5 (get_piece_at b r0 7)) r0 6 = none := by
    rw [get_piece_at_of_valid hv6]
    simp only [set_piece_at_apply, clear_square_apply, hv5, hv7, true_and]
    simp [h6]
  have hWb : (applyMoveWith b s ⟨(r0, 4), (r0, 6), none, true, false, dbl⟩ p).1 =
      set_piece_at (clear_square
        (set_piece_at (clear_square b r0 7) r0 5 (get_piece_at b r0 7)) r0 4)
        r0 6 (some p) := by
    simp [applyMoveWith, hg26]
  have hWcap : (applyMoveWith b s ⟨(r0, 4), (r0, 6), none, true, false, dbl⟩
      p).2.2.captured_piece = none := by
    simp [applyMoveWith, hg26]
  have hWrf : (applyMoveWith b s ⟨(r0, 4), (r0, 6), none, true, false, dbl⟩
      p).2.2.rook_from = some (r0, 7) := by
    simp [applyMoveWith]
  have hWrt : (applyMoveWith b s ⟨(r0, 4), (r0, 6), none, true, false, dbl⟩
      p).2.2.rook_to = some (r0, 5) := by
    simp [applyMoveWith]
  have hund : get_piece_at
      (applyMoveWith b s ⟨(r0, 4), (r0, 6), none, true, false, dbl⟩ p).1 r0 6 =
      some p := by
    rw [hWb]
    exact get_set_same _ hv6
  have hrt : roundTrip b s ⟨(r0, 4), (r0, 6), none, true, false, dbl⟩ =
      some (undoMoveWith
        (applyMoveWith b s ⟨(r0, 4), (r0, 6), none, true, false, dbl⟩ p).1
        (applyMoveWith b s ⟨(r0, 4), (r0, 6), none, true, false, dbl⟩ p).2.1
        ⟨(r0, 4), (r0, 6), none, true, false, dbl⟩
        (applyMoveWith b s ⟨(r0, 4), (r0, 6), none, true, false, dbl⟩ p).2.2
        p) := by
    simp only [roundTrip, apply_move, hp, Option.map_some']
    simp only [Option.some_bind, undo_move, hund, Option.map_some']
  have hrp2 : get_piece_at (set_piece_at (clear_square
      (set_piece_at (clear_square
        (set_piece_at (clear_square b r0 7) r0 5 (get_piece_at b r0 7)) r0 4)
        r0 6 (some p)) r0 6) r0 4 (some p)) r0 5 = get_piece_at b r0 7 := by
    rw [get_piece_at_of_valid hv5]
    simp only [set_piece_at_apply, clear_square_apply, hv0, hv5, hv6, hv7, true_and]
    simp
  have hub : (undoMoveWith
      (applyMoveWith b s ⟨(r0, 4), (r0, 6), none, true, false, dbl⟩ p).1
      (applyMoveWith b s ⟨(r0, 4), (r0, 6), none, true, false, dbl⟩ p).2.1
      ⟨(r0, 4), (r0, 6), none, true, false, dbl⟩
      (applyMoveWith b s ⟨(r0, 4), (r0, 6), none, true, false, dbl⟩ p).2.2
      p).1 =
      set_piece_at (clear_square (set_piece_at (clear_square
        (set_piece_at (clear_square
          (set_piece_at (clear_square b r0 7) r0 5 (get_piece_at b r0 7)) r0 4)
          r0 6 (some p)) r0 6) r0 4 (some p)) r0 5) r0 7 (get_piece_at b r0 7) := by
    simp only [undoMoveWith, hWcap, hWrf, hWrt, hWb, hrp2]
    simp [hrp2]
  have hgr : get_piece_at b r0 7 = b r0 7 := get_piece_at_of_valid hv7
  have hboard : ∀ r f, (undoMoveWith
      (applyMoveWith b s ⟨(r0, 4), (r0, 6), none, true, false, dbl⟩ p).1
      (applyMoveWith b s ⟨(r0, 4), (r0, 6), none, true, false, dbl⟩ p).2.1
      ⟨(r0, 4), (r0, 6), none, true, false, dbl⟩
      (applyMoveWith b s ⟨(r0, 4), (r0, 6), none, true, false, dbl⟩ p).2.2
      p).1 r f = b r f := by
    intro r f
    rw [hub, hgr]
    simp only [set_piece_at_apply, clear_square_apply, hv0, hv5, hv6, hv7, true_and]
    split_ifs with h1 h2 h3 h4
    · obtain ⟨rfl, rfl⟩ := h1
      rfl
    · obtain ⟨rfl, rfl⟩ := h2
      exact h5.symm
    · obtain ⟨rfl, rfl⟩ := h3
      exact hraw0.symm
    · obtain ⟨rfl, rfl⟩ := h4
      exact h6.symm
    · rfl
  exact ⟨_, _, hrt, hboard, roundTrip_state_eq b s _ p p⟩

theorem roundTrip_castle_queenside (b : Board) (s : GameState) (r0 : Int) (dbl : Bool)
    (p : Piece)
    (hraw0 : b r0 4 = some p) (hv0 : is_valid_square r0 4 = true)
    (h3 : b r0 3 = none) (h2e : b r0 2 = none) :
    ∃ b2 s2,
      roundTrip b s ⟨(r0, 4), (r0, 2), none, true, false, dbl⟩ = some (b2, s2) ∧
      (∀ r f, b2 r f = b r f) ∧ s2 = s := by
  have hp : get_piece_at b r0 4 = some p := by
    rw [get_piece_at_of_valid hv0]
    exact hraw0
  have hv3 : is_valid_square r0 3 = true := by
    rw [is_valid_square_iff] at hv0 ⊢
    omega
  have hv2 : is_valid_square r0 2 = true := by
    rw [is_valid_square_iff] at hv0 ⊢
    omega
  have hvz : is_valid_square r0 0 = true := by
    rw [is_valid_square_iff] at hv0 ⊢
    omega
  have hg22 : get_piece_at
      (set_piece_at (clear_square b r0 0) r0 3 (get_piece_at b r0 0)) r0 2 = none := by
    rw [get_piece_at_of_valid hv2]
    simp only [set_piece_at_apply, clear_square_apply, hv3, hvz, true_and]
    simp [h2e]
  have hWb : (applyMoveWith b s ⟨(r0, 4), (r0, 2), none, true, false, dbl⟩ p).1 =
      set_piece_at (clear_square
        (set_piece_at (clear_square b r0 0) r0 3 (get_piece_at b r0 0)) r0 4)
        r0 2 (some p) := by
    simp [applyMoveWith, hg22]
  have hWcap : (applyMoveWith b s ⟨(r0, 4), (r0, 2), none, true, false, dbl⟩
      p).2.2.captured_piece = none := by
    simp [applyMoveWith, hg22]
  have hWrf : (applyMoveWith b s ⟨(r0, 4), (r0, 2), none, true, false, dbl⟩
      p).2.2.rook_from = some (r0, 0) := by
    simp [applyMoveWith]
  have hWrt : (applyMoveWith b s ⟨(r0, 4), (r0, 2), none, true, false, dbl⟩
      p).2.2.rook_to = some (r0, 3) := by
    simp [applyMoveWith]
  have hund : get_piece_at
      (applyMoveWith b s ⟨(r0, 4), (r0, 2), none, true, false, dbl⟩ p).1 r0 2 =
      some p := by
    rw [hWb]
    exact get_set_same _ hv2
  have hrt : roundTrip b s ⟨(r0, 4), (r0, 2), none, true, false, dbl⟩ =
      some (undoMoveWith
        (applyMoveWith b s ⟨(r0, 4), (r0, 2), none, true, false, dbl⟩ p).1
        (applyMoveWith b s ⟨(r0, 4), (r0, 2), none, true, false, dbl⟩ p).2.1
        ⟨(r0, 4), (r0, 2), none, true, false, dbl⟩
        (applyMoveWith b s ⟨(r0, 4), (r0, 2), none, true, false, dbl⟩ p).2.2
        p) := by
    simp only [roundTrip, apply_move, hp, Option.map_some']
    simp only [Option.some_bind, undo_move, hund, Option.map_some']
  have hrp2 : get_piece_at (set_piece_at (clear_square
      (set_piece_at (clear_square
        (set_piece_at (clear_square b r0 0) r0 3 (get_piece_at b r0 0)) r0 4)
        r0 2 (some p)) r0 2) r0 4 (some p)) r0 3 = get_piece_at b r0 0 := by
    rw [get_piece_at_of_valid hv3]
    simp only [set_piece_at_apply, clear_square_apply, hv0, hv2, hv3, hvz, true_and]
    simp
  have hub : (undoMoveWith
      (applyMoveWith b s ⟨(r0, 4), (r0, 2), none, true, false, dbl⟩ p).1
      (applyMoveWith b s ⟨(r0, 4), (r0, 2), none, true, false, dbl⟩ p).2.1
      ⟨(r0, 4), (r0, 2), none, true, false, dbl⟩
      (applyMoveWith b s ⟨(r0, 4), (r0, 2), none, true, false, dbl⟩ p).2.2
      p).1 =
      set_piece_at (clear_square (set_piece_at (clear_square
        (set_piece_at (clear_square
          (set_piece_at (clear_square b r0 0) r0 3 (get_piece_at b r0 0)) r0 4)
          r0 2 (some p)) r0 2) r0 4 (some p)) r0 3) r0 0 (get_piece_at b r0 0) := by
    simp only [undoMoveWith, hWcap, hWrf, hWrt, hWb, hrp2]
    simp [hrp2]
  have hgr : get_piece_at b r0 0 = b r0 0 := get_piece_at_of_valid hvz
  have hboard : ∀ r f, (undoMoveWith
      (applyMoveWith b s ⟨(r0, 4), (r0, 2), none, true, false, dbl⟩ p).1
      (applyMoveWith b s ⟨(r0, 4), (r0, 2), none, true, false, dbl⟩ p).2.1
      ⟨(r0, 4), (r0, 2), none, true, false, dbl⟩
      (applyMoveWith b s ⟨(r0, 4), (r0, 2), none, true, false, dbl⟩ p).2.2
      p).1 r f = b r f := by
    intro r f
    rw [hub, hgr]
    simp only [set_piece_at_apply, clear_square_apply, hv0, hv2, hv3, hvz, true_and]
    split_ifs with h1 h2 h3b h4
    · obtain ⟨rfl, rfl⟩ := h1
      rfl
    · obtain ⟨rfl, rfl⟩ := h2
      exact h3.symm
    · obtain ⟨rfl, rfl⟩ := h3b
      exact hraw0.symm
    · obtain ⟨rfl, rfl⟩ := h4
      exact h2e.symm
    · rfl
  exact ⟨_, _, hrt, hboard, roundTrip_state_eq b s _ p p⟩

/-- C2 (amended): apply_move followed by undo_move with the returned record
restores board (piece type, color and square everywhere) and every GameState
field, for every legal move — under the two state sanity conditions that
actual play maintains but a crafted from_fen position can violate: an en
passant move lands on an empty on-board square, and a castle starts from the
king's home file e. -/
theorem apply_undo_restores_amended (b : Board) (s : GameState) (m : Move)
    (hmem : m ∈ get_legal_moves b s none)
    (hepok : m.is_en_passant = true →
      is_valid_square m.to_square.1 m.to_square.2 = true ∧
      b m.to_square.1 m.to_square.2 = none)
    (hcstok : m.is_castle = true → m.from_square.2 = 4) :
    ∃ b2 s2, roundTrip b s m = some (b2, s2) ∧ (∀ r f, b2 r f = b r f) ∧ s2 = s := by
  have hps : m ∈ pseudoMoves b s none := List.mem_of_mem_filter hmem
  have gf := genFacts_of_mem_pseudo hps
  obtain ⟨⟨r0, f0⟩, ⟨r1, f1⟩, promo, cast, ep, dbl⟩ := m
  obtain ⟨p, hraw, hcol, hpromoP, hcKfact⟩ := gf.piece
  cases ep with
  | true =>
    obtain ⟨hcf, hprn, htg, hnr, hnf⟩ := gf.ep_shape rfl
    have hcf2 : cast = false := hcf
    have hprn2 : promo = none := hprn
    subst hcf2
    subst hprn2
    obtain ⟨hvt, hdst⟩ := hepok rfl
    exact roundTrip_ep b s r0 f0 r1 f1 dbl p hraw gf.valid_from hvt hnr hnf hdst
  | false =>
    cases cast with
    | true =>
      obtain ⟨_, hprn, ht1, hside⟩ := gf.castle_shape rfl
      have hprn2 : promo = none := hprn
      subst hprn2
      have hf4 : f0 = 4 := hcstok rfl
      subst hf4
      have ht12 : r1 = r0 := ht1
      subst ht12
      rcases hside with ⟨h6, hb5, hb6⟩ | ⟨h2, hb3, hb2⟩
      · have h62 : f1 = 6 := h6
        subst h62
        exact roundTrip_castle_kingside b s r1 dbl p hraw gf.valid_from hb5 hb6
      · have h22 : f1 = 2 := h2
        subst h22
        exact roundTrip_castle_queenside b s r1 dbl p hraw gf.valid_from hb3 hb2
    | false =>
      have hvt := gf.valid_to rfl
      have hne2 : ¬(r1 = r0 ∧ f1 = f0) := by
        intro hand
        apply gf.ne
        show (r0, f0) = (r1, f1)
        rw [Prod.mk.injEq]
        exact ⟨hand.1.symm, hand.2.symm⟩
      exact roundTrip_plain b s r0 f0 r1 f1 promo dbl p hraw gf.valid_from hvt hne2
        hpromoP

/-- C7 (amended): for a legal en passant move whose target square is on the
board, apply_move removes exactly the occupant of (origin rank, destination
file), records it with that square in the undo info, and leaves that square
empty afterwards. -/
theorem en_passant_capture_square_amended (b : Board) (s : GameState) (m : Move)
    (hmem : m ∈ get_legal_moves b s none)
    (hep : m.is_en_passant = true)
    (hvt : is_valid_square m.to_square.1 m.to_square.2 = true) :
    ∃ b2 s2 u, apply_move b s m = some (b2, s2, u) ∧
      u.captured_square = (m.from_square.1, m.to_square.2) ∧
      u.captured_piece = get_piece_at b m.from_square.1 m.to_square.2 ∧
      b2 m.from_square.1 m.to_square.2 = none := by
  have hps : m ∈ pseudoMoves b s none := List.mem_of_mem_filter hmem
  have gf := genFacts_of_mem_pseudo hps
  obtain ⟨⟨r0, f0⟩, ⟨r1, f1⟩, promo, cast, ep, dbl⟩ := m
  obtain ⟨p, hraw, hcol, hpromoP, hcKfact⟩ := gf.piece
  have hepT : ep = true := hep
  subst hepT
  obtain ⟨hcf, hprn, htg, hnr, hnf⟩ := gf.ep_shape rfl
  have hcf2 : cast = false := hcf
  have hprn2 : promo = none := hprn
  subst hcf2
  subst hprn2
  have hv0 : is_valid_square r0 f0 = true := gf.valid_from
  have hv1 : is_valid_square r1 f1 = true := hvt
  have hnr2 : r1 ≠ r0 := hnr
  have hnf2 : f1 ≠ f0 := hnf
  have hp : get_piece_at b r0 f0 = some p := by
    rw [get_piece_at_of_valid hv0]
    exact hraw
  have hvc : is_valid_square r0 f1 = true := by
    rw [is_valid_square_iff] at hv0 hv1 ⊢
    omega
  have happ : apply_move b s ⟨(r0, f0), (r1, f1), none, false, true, dbl⟩ =
      some (applyMoveWith b s ⟨(r0, f0), (r1, f1), none, false, true, dbl⟩ p) := by
    simp [apply_move, hp]
  have hWcapsq : (applyMoveWith b s ⟨(r0, f0), (r1, f1), none, false, true, dbl⟩
      p).2.2.captured_square = (r0, f1) := by
    simp [applyMoveWith]
  have hWcap : (applyMoveWith b s ⟨(r0, f0), (r1, f1), none, false, true, dbl⟩
      p).2.2.captured_piece = get_piece_at b r0 f1 := by
    simp [applyMoveWith]
  have hWb : (applyMoveWith b s ⟨(r0, f0), (r1, f1), none, false, true, dbl⟩ p).1 =
      set_piece_at (clear_square (clear_square b r0 f1) r0 f0) r1 f1 (some p) := by
    simp [applyMoveWith]
  have hempty : (applyMoveWith b s ⟨(r0, f0), (r1, f1), none, false, true, dbl⟩
      p).1 r0 f1 = none := by
    rw [hWb]
    simp only [set_piece_at_apply, clear_square_apply, hv0, hv1, hvc, true_and]
    split_ifs <;> first
      | rfl
      | (exfalso
         omega)
  exact ⟨_, _, _, happ, hWcapsq, hWcap, hempty⟩

theorem noKing_set {b : Board} {c : Color} (h : noKing b c) (r f : Int)
    (pay : Option Piece)
    (hpay : ∀ x, pay = some x → ¬(x.color = c ∧ x.ptype = PType.K)) :
    noKing (set_piece_at b r f pay) c := by
  intro r' f' pk hv hpk
  rw [set_piece_at_apply] at hpk
  split_ifs at hpk with hcond
  · exact hpay pk hpk
  · exact h r' f' pk hv hpk

theorem noKing_clear {b : Board} {c : Color} (h : noKing b c) (r f : Int) :
    noKing (clear_square b r f) c :=
  noKing_set h r f none (fun x hx => by cases hx)

theorem noKing_get {b : Board} {c : Color} (h : noKing b c) (r f : Int) :
    ∀ x, get_piece_at b r f = some x → ¬(x.color = c ∧ x.ptype = PType.K) := by
  intro x hx
  obtain ⟨hv, hr⟩ := get_piece_at_eq_some hx
  exact h r f x hv hr

theorem promo_match_eq (promo : Option PType) (p : Piece) (X : Board) (r1 f1 : Int) :
    (match promo with
     | some pt => set_piece_at X r1 f1 (some ⟨pt, p.color⟩)
     | none => set_piece_at X r1 f1 (some p)) =
    set_piece_at X r1 f1 (some (promoPay promo p)) := by
  cases promo <;> rfl

/-- apply_move can only move pieces already on the board or create a promotion
piece, never a king: a board without a king of color c keeps having none. -/
theorem applyMoveWith_noKing (b : Board) (s : GameState) (m : Move) (p : Piece)
    (c : Color) (h : noKing b c) (hpk : ¬(p.color = c ∧ p.ptype = PType.K))
    (hpromoK : ∀ pt, m.promotion_piece = some pt → pt ≠ PType.K) :
    noKing (applyMoveWith b s m p).1 c := by
  obtain ⟨⟨r0, f0⟩, ⟨r1, f1⟩, promo, cast, ep, dbl⟩ := m
  have hpayP : ∀ x, some (promoPay promo p) = some x →
      ¬(x.color = c ∧ x.ptype = PType.K) := by
    intro x hx
    injection hx with hx2
    subst hx2
    cases promo with
    | none => exact hpk
    | some pt =>
      intro hcon
      exact hpromoK pt rfl hcon.2
  cases ep with
  | true =>
    cases cast with
    | false =>
      have hb : (applyMoveWith b s ⟨(r0, f0), (r1, f1), promo, false, true, dbl⟩ p).1 =
          set_piece_at (clear_square (clear_square b r0 f1) r0 f0) r1 f1
            (some (promoPay promo p)) := by
        simp [applyMoveWith, promo_match_eq]
      rw [hb]
      exact noKing_set (noKing_clear (noKing_clear h r0 f1) r0 f0) r1 f1 _ hpayP
    | true =>
      by_cases hff : f1 > f0
      · have hb : (applyMoveWith b s ⟨(r0, f0), (r1, f1), promo, true, true, dbl⟩ p).1 =
            set_piece_at (clear_square
              (set_piece_at (clear_square (clear_square b r0 f1) r0 7) r0 5
                (get_piece_at (clear_square b r0 f1) r0 7)) r0 f0) r1 f1
              (some (promoPay promo p)) := by
          simp [applyMoveWith, promo_match_eq, hff]
        rw [hb]
        exact noKing_set (noKing_clear (noKing_set
          (noKing_clear (noKing_clear h r0 f1) r0 7) r0 5 _
          (noKing_get (noKing_clear h r0 f1) r0 7)) r0 f0) r1 f1 _ hpayP
      · have hb : (applyMoveWith b s ⟨(r0, f0), (r1, f1), promo, true, true, dbl⟩ p).1 =
            set_piece_at (clear_square
              (set_piece_at (clear_square (clear_square b r0 f1) r0 0) r0 3
                (get_piece_at (clear_square b r0 f1) r0 0)) r0 f0) r1 f1
              (some (promoPay promo p)) := by
          simp [applyMoveWith, promo_match_eq, hff]
        rw [hb]
        exact noKing_set (noKing_clear (noKing_set
          (noKing_clear (noKing_clear h r0 f1) r0 0) r0 3 _
          (noKing_get (noKing_clear h r0 f1) r0 0)) r0 f0) r1 f1 _ hpayP
  | false =>
    cases cast with
    | false =>
      by_cases hcap : (get_piece_at b r1 f1).isSome = true
      · have hb : (applyMoveWith b s ⟨(r0, f0), (r1, f1), promo, false, false, dbl⟩ p).1 =
            set_piece_at (clear_square (clear_square b r1 f1) r0 f0) r1 f1
              (some (promoPay promo p)) := by
          simp [applyMoveWith, promo_match_eq, hcap]
        rw [hb]
        exact noKing_set (noKing_clear (noKing_clear h r1 f1) r0 f0) r1 f1 _ hpayP
      · have hb : (applyMoveWith b s ⟨(r0, f0), (r1, f1), promo, false, false, dbl⟩ p).1 =
            set_piece_at (clear_square b r0 f0) r1 f1 (some (promoPay promo p)) := by
          simp [applyMoveWith, promo_match_eq, hcap]
        rw [hb]
        exact noKing_set (noKing_clear h r0 f0) r1 f1 _ hpayP
    | true =>
      by_cases hff : f1 > f0
      · by_cases hcap : (get_piece_at (set_piece_at (clear_square b r0 7) r0 5
            (get_piece_at b r0 7)) r1 f1).isSome = true
        · have hb : (applyMoveWith b s ⟨(r0, f0), (r1, f1), promo, true, false, dbl⟩ p).1 =
              set_piece_at (clear_square (clear_square
                (set_piece_at (clear_square b r0 7) r0 5 (get_piece_at b r0 7)) r1 f1)
                r0 f0) r1 f1 (some (promoPay promo p)) := by
            simp [applyMoveWith, promo_match_eq, hff, hcap]
          rw [hb]
          exact noKing_set (noKing_clear (noKing_clear (noKing_set
            (noKing_clear h r0 7) r0 5 _ (noKing_get h r0 7)) r1 f1) r0 f0) r1 f1 _ hpayP
        · have hb : (applyMoveWith b s ⟨(r0, f0), (r1, f1), promo, true, false, dbl⟩ p).1 =
              set_piece_at (clear_square
                (set_piece_at (clear_square b r0 7) r0 5 (get_piece_at b r0 7)) r0 f0)
                r1 f1 (some (promoPay promo p)) := by
            simp [applyMoveWith, promo_match_eq, hff, hcap]
          rw [hb]
          exact noKing_set (noKing_clear (noKing_set
            (noKing_clear h r0 7) r0 5 _ (noKing_get h r0 7)) r0 f0) r1 f1 _ hpayP
      · by_cases hcap : (get_piece_at (set_piece_at (clear_square b r0 0) r0 3
            (get_piece_at b r0 0)) r1 f1).isSome = true
        · have hb : (applyMoveWith b s ⟨(r0, f0), (r1, f1), promo, true, false, dbl⟩ p).1 =
              set_piece_at (clear_square (clear_square
                (set_piece_at (clear_square b r0 0) r0 3 (get_piece_at b r0 0)) r1 f1)
                r0 f0) r1 f1 (some (promoPay promo p)) := by
            simp [applyMoveWith, promo_match_eq, hff, hcap]
          rw [hb]
          exact noKing_set (noKing_clear (noKing_clear (noKing_set
            (noKing_clear h r0 0) r0 3 _ (noKing_get h r0 0)) r1 f1) r0 f0) r1 f1 _ hpayP
        · have hb : (applyMoveWith b s ⟨(r0, f0), (r1, f1), promo, true, false, dbl⟩ p).1 =
              set_piece_at (clear_square
                (set_piece_at (clear_square b r0 0) r0 3 (get_piece_at b r0 0)) r0 f0)
                r1 f1 (some (promoPay promo p)) := by
            simp [applyMoveWith, promo_match_eq, hff, hcap]
          rw [hb]
          exact noKing_set (noKing_clear (noKing_set
            (noKing_clear h r0 0) r0 3 _ (noKing_get h r0 0)) r0 f0) r1 f1 _ hpayP

theorem mem_allSquares_of_valid {r f : Int} (h : is_valid_square r f = true) :
    (r, f) ∈ allSquares := by
  rw [is_valid_square_iff] at h
  have hall : ∀ a ∈ List.range 8, ∀ c ∈ List.range 8,
      ((a : Int), (c : Int)) ∈ allSquares := by decide
  have he : (r, f) = ((r.toNat : Int), (f.toNat : Int)) := by
    rw [Prod.mk.injEq]
    constructor <;> omega
  rw [he]
  refine hall r.toNat ?_ f.toNat ?_ <;> rw [List.mem_range] <;> omega

theorem find_king_eq_none_of_noKing {b : Board} {c : Color} (h : noKing b c) :
    find_king b c = none := by
  unfold find_king
  rw [List.find?_eq_none]
  intro q hq
  have hqv : is_valid_square q.1 q.2 = true := by
    rw [is_valid_square_iff]
    exact mem_allSquares_bounds hq
  intro hcon
  revert hcon
  cases hb : b q.1 q.2 with
  | none =>
    intro hcon
    have hcon2 : (false : Bool) = true := hcon
    cases hcon2
  | some pk =>
    intro hcon
    have hcon2 : decide (pk.color = c ∧ pk.ptype = PType.K) = true := hcon
    exact h q.1 q.2 pk hqv hb (of_decide_eq_true hcon2)

theorem noKing_of_find_king_eq_none {b : Board} {c : Color}
    (h : find_king b c = none) : noKing b c := by
  intro r f pk hv hpk hcon
  unfold find_king at h
  rw [List.find?_eq_none] at h
  have hmem := mem_allSquares_of_valid hv
  have h2 := h (r, f) hmem
  rw [hpk] at h2
  exact h2 (decide_eq_true hcon)

/-- C10: when the side to move has no king on the board (find_king returns
None), is_in_check reports False, get_legal_moves is empty because every
pseudo-legal candidate is discarded by the post-move find_king test, and
get_game_status therefore classifies the position as stalemate; nothing in
this path raises. -/
theorem kingless_side_is_stalemate (b : Board) (s : GameState)
    (hk : find_king b s.side_to_move = none) :
    is_in_check b s none = false ∧ get_legal_moves b s none = [] ∧
    get_game_status b s = "stalemate" := by
  have hnk : noKing b s.side_to_move := noKing_of_find_king_eq_none hk
  have hcheck : is_in_check b s none = false := by
    simp [is_in_check, hk]
  have hlegal : get_legal_moves b s none = [] := by
    rw [get_legal_moves]
    rw [List.filter_eq_nil_iff]
    intro mm hmm
    have gf := genFacts_of_mem_pseudo hmm
    obtain ⟨p, hraw, hcol, hpromoP, hcK⟩ := gf.piece
    have hp2 : get_piece_at b mm.from_square.1 mm.from_square.2 = some p := by
      rw [get_piece_at_of_valid gf.valid_from]
      exact hraw
    have hpk : ¬(p.color = s.side_to_move ∧ p.ptype = PType.K) :=
      hnk mm.from_square.1 mm.from_square.2 p gf.valid_from hraw
    have hpromoK : ∀ pt, mm.promotion_piece = some pt → pt ≠ PType.K := by
      intro pt hpt hKeq
      have h2 := gf.promo_mem pt hpt
      subst hKeq
      exact absurd h2 (by decide)
    have happ : apply_move b s mm = some (applyMoveWith b s mm p) := by
      simp [apply_move, hp2]
    have hnk4 : noKing (applyMoveWith b s mm p).1 s.side_to_move :=
      applyMoveWith_noKing b s mm p s.side_to_move hnk hpk hpromoK
    have hfk : find_king (applyMoveWith b s mm p).1 s.side_to_move = none :=
      find_king_eq_none_of_noKing hnk4
    simp [survivesCheck, happ, hfk]
  refine ⟨hcheck, hlegal, ?_⟩
  simp [get_game_status, hcheck, hlegal]

/-- C1: square_attacked_by has the pawn direction reversed.  A white pawn on
e2 really attacks d3 = (2, 3) and f3 = (2, 5) (diagonally forward), yet the
function reports those squares unattacked and instead reports d1 = (0, 3) and
f1 = (0, 5), one rank behind the pawn, as attacked by White. -/
theorem square_attacked_by_pawn_reversed :
    get_piece_at c1Board 1 4 = some ⟨PType.P, Color.white⟩ ∧
    square_attacked_by c1Board (2, 3) Color.white none = false ∧
    square_attacked_by c1Board (2, 5) Color.white none = false ∧
    square_attacked_by c1Board (0, 3) Color.white none = true ∧
    square_attacked_by c1Board (0, 5) Color.white none = true := by decide

/-- C3: after the legal double push e2e4 from the standard starting position,
to_fen renders the en-passant target as "e6", not "e3": the target is stored
internally as (2, 4) (the square passed over, rank 0 = White's back rank) but
coords_to_fen_square prints rank 8 - r. -/
theorem to_fen_ep_field_after_double_push :
    e2e4Move ∈ get_legal_moves startPos.1 startPos.2 none ∧
    (apply_move startPos.1 startPos.2 e2e4Move).map (fun t => t.2.1.en_passant_target) =
      some (some (2, 4)) ∧
    (apply_move startPos.1 startPos.2 e2e4Move).map (fun t => to_fen t.2.1 t.1) =
      some "rnbqkbnr/pppppppp/8/8/4P3/8/PPPP1PPP/RNBQKBNR b KQkq e6 0 1" ∧
    coords_to_fen_square 2 4 = "e6" := by decide

/-- C4: uci_style prints the rank as 8 - r although the repository convention
(and the docstring example e2e4) has rank 0 = White's back rank: the double
push from (1, 4) to (3, 4) prints as "e7e5" instead of "e2e4", and the White
promotion from (6, 4) to (7, 4) prints as "e2e1q" instead of ending in "e8q". -/
theorem uci_style_rank_mirrored :
    uci_style ⟨(1, 4), (3, 4), none, false, false, true⟩ = "e7e5" ∧
    uci_style ⟨(6, 4), (7, 4), some PType.Q, false, false, false⟩ = "e2e1q" := by decide

/-- C5: apply_move drops a castling right by file alone.  The legal rook move
h6h5 — from (5, 7), which is not the corner h1 — removes the White king-side
right 'K' from "KQkq", although the claim (and the spec) allows a drop only
for a rook moving from its original corner square. -/
theorem castling_right_dropped_from_noncorner :
    fenError c5Fen = none ∧
    (parseFenD c5Fen).2.castling_rights = ['K', 'Q', 'k', 'q'] ∧
    get_piece_at (parseFenD c5Fen).1 5 7 = some ⟨PType.R, Color.white⟩ ∧
    (⟨(5, 7), (4, 7), none, false, false, false⟩ : Move) ∈
      get_legal_moves (parseFenD c5Fen).1 (parseFenD c5Fen).2 none ∧
    (apply_move (parseFenD c5Fen).1 (parseFenD c5Fen).2
        ⟨(5, 7), (4, 7), none, false, false, false⟩).map
      (fun t => t.2.1.castling_rights) = some ['Q', 'k', 'q'] := by decide

/-- C6: the castling gate misses a pawn attack on the king's destination.
With a black pawn on f2 = (1, 5), the squares e1 and g1 are pawn-attacked by
Black (diagonally forward for Black), yet White's king-side castle e1g1 is a
member of get_legal_moves, because square_attacked_by (with its reversed pawn
direction, see C1) reports g1 unattacked. -/
theorem castle_through_pawn_attack_allowed :
    fenError c6Fen = none ∧
    get_piece_at (parseFenD c6Fen).1 1 5 = some ⟨PType.P, Color.black⟩ ∧
    get_piece_at (parseFenD c6Fen).1 0 4 = some ⟨PType.K, Color.white⟩ ∧
    get_piece_at (parseFenD c6Fen).1 0 7 = some ⟨PType.R, Color.white⟩ ∧
    (⟨(0, 4), (0, 6), none, true, false, false⟩ : Move) ∈
      get_legal_moves (parseFenD c6Fen).1 (parseFenD c6Fen).2 none ∧
    square_attacked_by (parseFenD c6Fen).1 (0, 6) Color.black none = false := by decide

/-- C8: from_fen error behavior.  Too few fields, a wrong rank count, an
underfull rank and a bad side letter all raise ValueError (the FormatError
kind), and castling leniency and the clock defaults hold — but a rank token
that overruns 8 files ("9") escapes as the board setter's IndexError instead
of a FormatError. -/
theorem from_fen_error_kinds :
    fenError "9/8/8/8/8/8/8/8 w - - 0 1" = some FenErr.indexError ∧
    fenError "8/8/8/8" = some FenErr.valueError ∧
    fenError "8/8/8/8/8/8/8 w - - 0 1" = some FenErr.valueError ∧
    fenError "7/8/8/8/8/8/8/8 w - - 0 1" = some FenErr.valueError ∧
    fenError "8/8/8/8/8/8/8/8 x - - 0 1" = some FenErr.valueError ∧
    fenError "8/8/8/8/8/8/8/8 w KXq - 0 1" = none ∧
    (parseFenD "8/8/8/8/8/8/8/8 w KXq - 0 1").2.castling_rights = ['K', 'q'] ∧
    fenError "8/8/8/8/8/8/8/8 w KQkq -" = none ∧
    (parseFenD "8/8/8/8/8/8/8/8 w KQkq -").2.halfmove_clock = 0 ∧
    (parseFenD "8/8/8/8/8/8/8/8 w KQkq -").2.fullmove_number = 1 := by decide

/-- C9: get_game_status returns "checkmate" iff the side to move is in check
with no legal moves, "stalemate" iff not in check with no legal moves,
"check" iff in check with a legal move, "playing" otherwise; and the scholar's
mate position is classified checkmate with Black in check, while the
queen-stalemate position is classified stalemate with zero legal moves and
Black not in check. -/
theorem game_status_classification :
    (∀ b s, (get_game_status b s = "checkmate" ↔
        is_in_check b s none = true ∧ get_legal_moves b s none = [])) ∧
    (∀ b s, (get_game_status b s = "stalemate" ↔
        is_in_check b s none = false ∧ get_legal_moves b s none = [])) ∧
    (∀ b s, (get_game_status b s = "check" ↔
        is_in_check b s none = true ∧ get_legal_moves b s none ≠ [])) ∧
    (∀ b s, (get_game_status b s = "playing" ↔
        is_in_check b s none = false ∧ get_legal_moves b s none ≠ [])) ∧
    fenError scholarsFen = none ∧
    get_game_status (parseFenD scholarsFen).1 (parseFenD scholarsFen).2 = "checkmate" ∧
    is_in_check (parseFenD scholarsFen).1 (parseFenD scholarsFen).2
      (some Color.black) = true ∧
    fenError stalemateFen = none ∧
    get_game_status (parseFenD stalemateFen).1 (parseFenD stalemateFen).2 =
      "stalemate" ∧
    get_legal_moves (parseFenD stalemateFen).1 (parseFenD stalemateFen).2 none = [] ∧
    is_in_check (parseFenD stalemateFen).1 (parseFenD stalemateFen).2
      (some Color.black) = false := by
  refine ⟨?_, ?_, ?_, ?_, ?_, ?_, ?_, ?_, ?_, ?_, ?_⟩
  · intro b s
    by_cases hl : get_legal_moves b s none = [] <;>
      cases hc : is_in_check b s none <;>
        simp [get_game_status, hl, hc]
  · intro b s
    by_cases hl : get_legal_moves b s none = [] <;>
      cases hc : is_in_check b s none <;>
        simp [get_game_status, hl, hc]
  · intro b s
    by_cases hl : get_legal_moves b s none = [] <;>
      cases hc : is_in_check b s none <;>
        simp [get_game_status, hl, hc]
  · intro b s
    by_cases hl : get_legal_moves b s none = [] <;>
      cases hc : is_in_check b s none <;>
        simp [get_game_status, hl, hc]
  · decide
  · decide
  · decide
  · decide
  · decide
  · decide
  · decide

/-- C2 counterexample: from_fen-style states may carry an en-passant target on
an occupied square; the en-passant capture onto it is in get_legal_moves, but
apply_move overwrites the occupant without recording it, so apply followed by
undo leaves (5, 3) empty where the black knight stood — the round trip is not
exact for this board+state and legal move. -/
theorem apply_undo_not_exact_on_occupied_ep_target :
    epTrapMove ∈ get_legal_moves epTrapBoard epTrapState none ∧
    epTrapBoard 5 3 = some ⟨PType.N, Color.black⟩ ∧
    (roundTrip epTrapBoard epTrapState epTrapMove).map (fun t => t.1 5 3) =
      some none := by decide

/-- Witness for the amended C2 theorem at the legal king move e1d1. -/
theorem apply_undo_restores_amended_witness :
    (⟨(0, 4), (0, 3), none, false, false, false⟩ : Move) ∈
      get_legal_moves twoKingsBoard twoKingsState none ∧
    (∃ b2 s2, roundTrip twoKingsBoard twoKingsState
        ⟨(0, 4), (0, 3), none, false, false, false⟩ = some (b2, s2) ∧
      (∀ r f, b2 r f = twoKingsBoard r f) ∧ s2 = twoKingsState) :=
  ⟨by decide,
   apply_undo_restores_amended twoKingsBoard twoKingsState
     ⟨(0, 4), (0, 3), none, false, false, false⟩ (by decide)
     (fun h => absurd h (by decide)) (fun h => absurd h (by decide))⟩

/-- C7 counterexample: an en passant move in get_legal_moves whose destination
square holds a black bishop — the claim that the destination square is empty
before every applied en passant move fails on such from_fen-reachable
states. -/
theorem en_passant_destination_not_always_empty :
    c7TrapMove ∈ get_legal_moves c7TrapBoard c7TrapState none ∧
    get_piece_at c7TrapBoard 5 1 = some ⟨PType.B, Color.black⟩ := by decide

/-- Witness for the amended C7 theorem at a clean en passant capture. -/
theorem en_passant_capture_square_amended_witness :
    epCleanMove ∈ get_legal_moves epCleanBoard epCleanState none ∧
    (∃ b2 s2 u, apply_move epCleanBoard epCleanState epCleanMove = some (b2, s2, u) ∧
      u.captured_square = (epCleanMove.from_square.1, epCleanMove.to_square.2) ∧
      u.captured_piece = get_piece_at epCleanBoard epCleanMove.from_square.1
        epCleanMove.to_square.2 ∧
      b2 epCleanMove.from_square.1 epCleanMove.to_square.2 = none) :=
  ⟨by decide,
   en_passant_capture_square_amended epCleanBoard epCleanState epCleanMove
     (by decide) (by decide) (by decide)⟩

/-- Witness for the C10 theorem on the kingless lone-pawn board (whose pawn
does generate pseudo-legal moves, all discarded). -/
theorem kingless_side_is_stalemate_witness :
    find_king lonePawnBoard lonePawnState.side_to_move = none ∧
    (is_in_check lonePawnBoard lonePawnState none = false ∧
     get_legal_moves lonePawnBoard lonePawnState none = [] ∧
     get_game_status lonePawnBoard lonePawnState = "stalemate") :=
  ⟨by decide, kingless_side_is_stalemate lonePawnBoard lonePawnState (by decide)⟩
